import Mathlib

/-
  Verification development for the PaperMiner section-extraction core
  (src/scripts/llm_helper.py and src/scripts/batch_pdf_processor_gui.py).

  The Python code is shallowly embedded: strings are Lean `String`s
  (lists of unicode code points, matching Python's `str`), regular
  expressions from the literal pattern tables are transcribed into a
  small regular-expression datatype matched with Brzozowski derivatives,
  dictionaries are association lists with Python-dict update semantics
  (update in place, insert at the end), and the two stdlib parsers the
  code calls (`json.loads`, `ast.literal_eval`) are modelled by
  executable recursive-descent parsers.
-/

set_option maxRecDepth 8000

namespace PaperMiner

/-! ## Python-style character and string helpers -/

/-- Characters treated as whitespace by Python's `str.strip` and by `\s`
in a unicode-mode regular expression (the common members; the source
documents only ever contain the ASCII ones). -/
def isPyWs (c : Char) : Bool :=
  c = ' ' ∨ c = '\t' ∨ c = '\n' ∨ c = '\r' ∨ c = '\x0b' ∨ c = '\x0c' ∨
  c = '\x85' ∨ c = '\xa0' ∨ c = '　'

def isAsciiAlpha (c : Char) : Bool :=
  ('a' ≤ c ∧ c ≤ 'z') ∨ ('A' ≤ c ∧ c ≤ 'Z')

/-- The two dot characters accepted by the `[\.．]` character classes in the
pattern tables (half-width and full-width full stop). -/
def isDotSep (c : Char) : Bool := c = '.' ∨ c = '．'

/-- Drop trailing whitespace (a right fold keeps a trailing-whitespace
suffix out of the accumulator while it is still empty). -/
def stripRight (cs : List Char) : List Char :=
  cs.foldr (fun c acc => if acc.isEmpty ∧ isPyWs c then [] else c :: acc) []

def pyStripList (cs : List Char) : List Char := stripRight (cs.dropWhile isPyWs)

/-- Python `str.strip()` with no argument. -/
def pyStrip (s : String) : String := String.mk (pyStripList s.data)

/-- Python `str.rstrip()` with no argument. -/
def pyRstrip (s : String) : String := String.mk (stripRight s.data)

/-- ASCII lowercasing, used to model `re.IGNORECASE` matching: every
cased letter occurring in the pattern tables is an ASCII letter. -/
def asciiLowerChar (c : Char) : Char :=
  if 'A' ≤ c ∧ c ≤ 'Z' then Char.ofNat (c.toNat + 32) else c

def asciiLower (s : String) : String := String.mk (s.data.map asciiLowerChar)

/-- Python `content.split('\n')`. -/
def splitNl : List Char → List (List Char)
  | [] => [[]]
  | c :: cs =>
    if c = '\n' then [] :: splitNl cs
    else
      match splitNl cs with
      | [] => [[c]]
      | g :: gs => (c :: g) :: gs

def splitLines (s : String) : List String := (splitNl s.data).map String.mk

/-- Python `'\n'.join(lines)`. -/
def joinNl : List String → String
  | [] => ""
  | [l] => l
  | l :: l2 :: rest => l ++ "\n" ++ joinNl (l2 :: rest)

/-- Python `sep.join(parts)` for an arbitrary separator. -/
def joinSep (sep : String) : List String → String
  | [] => ""
  | [l] => l
  | l :: l2 :: rest => l ++ sep ++ joinSep sep (l2 :: rest)

def listStartsWith : List Char → List Char → Bool
  | [], _ => true
  | _ :: _, [] => false
  | p :: ps, c :: cs => p = c ∧ listStartsWith ps cs

/-- Python `s.startswith(p)`. -/
def pyStartsWith (s p : String) : Bool := listStartsWith p.data s.data

/-- Python `s.endswith(p)`. -/
def pyEndsWith (s p : String) : Bool := listStartsWith p.data.reverse s.data.reverse

def containsSub (hay needle : List Char) : Bool :=
  match hay with
  | [] => listStartsWith needle []
  | _ :: rest => listStartsWith needle hay || containsSub rest needle

/-- Python `needle in hay` on strings (substring containment). -/
def pyContains (hay needle : String) : Bool := containsSub hay.data needle.data

def replaceSubList (hay needle repl : List Char) : List Char :=
  match hay with
  | [] => []
  | c :: rest =>
    if listStartsWith needle (c :: rest) ∧ needle ≠ [] then
      repl ++ replaceSubList (rest.drop (needle.length - 1)) needle repl
    else
      c :: replaceSubList rest needle repl
termination_by hay.length
decreasing_by
  · simp only [List.length_drop, List.length_cons]
    omega
  · simp

/-- Python `s.replace(old, new)` (all non-overlapping occurrences, left to
right; the code only calls it with non-empty `old`). -/
def pyReplace (s old new : String) : String :=
  String.mk (replaceSubList s.data old.data new.data)

/-- Python `str(n)` for a natural number (fuel-based so that it reduces
definitionally in the kernel). -/
def natToStrAux : Nat → Nat → List Char → List Char
  | 0, _, acc => acc
  | _ + 1, n, acc =>
    let d := Char.ofNat (n % 10 + 48)
    if n < 10 then d :: acc else natToStrAux n (n / 10) (d :: acc)

def natToStr (n : Nat) : String := String.mk (natToStrAux (n + 1) n [])

/-! ## Association lists with Python-dict semantics

Python `dict` preserves insertion order; assigning to an existing key
updates the value in place, assigning to a fresh key appends. -/

def alGet {β : Type} (m : List (String × β)) (k : String) : Option β :=
  match m with
  | [] => none
  | (k0, v0) :: rest => if k0 = k then some v0 else alGet rest k

/-- Python `d[k] = v`. -/
def alSet {β : Type} (m : List (String × β)) (k : String) (v : β) : List (String × β) :=
  match m with
  | [] => [(k, v)]
  | (k0, v0) :: rest => if k0 = k then (k0, v) :: rest else (k0, v0) :: alSet rest k v

/-- Python `del d[k]`. -/
def alErase {β : Type} (m : List (String × β)) (k : String) : List (String × β) :=
  match m with
  | [] => []
  | (k0, v0) :: rest => if k0 = k then rest else (k0, v0) :: alErase rest k

def alContains {β : Type} (m : List (String × β)) (k : String) : Bool :=
  (alGet m k).isSome

/-! ## A small regular-expression engine

The pattern tables of `extract_sections_fallback` are transcribed into
this datatype and matched with Brzozowski derivatives.  `full = true`
corresponds to a pattern ending in `$` (the line contains no newline, so
`$` is end-of-string); `full = false` is plain `re.match` prefix
semantics. -/

inductive RE where
  | fail
  | eps
  | chr (c : Char)
  | cls (p : Char → Bool)
  | cat (a b : RE)
  | alt (a b : RE)
  | star (a : RE)

def mkCat : RE → RE → RE
  | .fail, _ => .fail
  | _, .fail => .fail
  | .eps, b => b
  | a, .eps => a
  | a, b => .cat a b

def mkAlt : RE → RE → RE
  | .fail, b => b
  | a, .fail => a
  | a, b => .alt a b

def RE.nullable : RE → Bool
  | .fail => false
  | .eps => true
  | .chr _ => false
  | .cls _ => false
  | .cat a b => a.nullable && b.nullable
  | .alt a b => a.nullable || b.nullable
  | .star _ => true

def RE.deriv : RE → Char → RE
  | .fail, _ => .fail
  | .eps, _ => .fail
  | .chr c, x => if x = c then .eps else .fail
  | .cls p, x => if p x then .eps else .fail
  | .cat a b, x =>
    if a.nullable then mkAlt (mkCat (a.deriv x) b) (b.deriv x)
    else mkCat (a.deriv x) b
  | .alt a b, x => mkAlt (a.deriv x) (b.deriv x)
  | .star a, x => mkCat (a.deriv x) (.star a)

/-- Whole-string matching (a `^...$` pattern). -/
def matchAll : RE → List Char → Bool
  | .fail, _ => false
  | r, [] => r.nullable
  | r, c :: cs => matchAll (r.deriv c) cs

/-- Prefix matching: Python `re.match` without a `$` anchor. -/
def matchPre : RE → List Char → Bool
  | .fail, _ => false
  | r, [] => r.nullable
  | r, c :: cs => r.nullable || matchPre (r.deriv c) cs

structure Pat where
  re : RE
  full : Bool

def Pat.matches (p : Pat) (s : String) : Bool :=
  if p.full then matchAll p.re s.data else matchPre p.re s.data

/-- Case-insensitive match (`re.IGNORECASE`): the patterns are written in
lower case, so the subject is lowercased. -/
def pMatchCI (p : Pat) (s : String) : Bool := p.matches (asciiLower s)

def anyMatchCI (ps : List Pat) (s : String) : Bool := ps.any (fun p => pMatchCI p s)

/-! Combinators mirroring the concrete syntax of the table patterns. -/

/-- Literal word. -/
def w (s : String) : RE := s.data.foldr (fun c r => RE.cat (RE.chr c) r) RE.eps

/-- `X?` applied to the final `s` of a word (e.g. `methods?`). -/
def ps (s : String) : RE := RE.cat (w s) (RE.alt (RE.chr 's') RE.eps)

def wsC : RE := RE.cls isPyWs
/-- `\s*` -/
def ws0 : RE := RE.star wsC
/-- `\s+` -/
def ws1 : RE := RE.cat wsC (RE.star wsC)
/-- `#+` -/
def hashes : RE := RE.cat (RE.chr '#') (RE.star (RE.chr '#'))
def digitC : RE := RE.cls Char.isDigit
/-- `\d+` -/
def digits1 : RE := RE.cat digitC (RE.star digitC)
/-- `[\.．]` -/
def dotC : RE := RE.cls isDotSep
/-- `[\.．]?` -/
def dotOpt : RE := RE.alt dotC RE.eps
/-- `[ivx]+` (the subject is lowercased first, covering `IGNORECASE`). -/
def roman1 : RE :=
  RE.cat (RE.cls fun c => c = 'i' ∨ c = 'v' ∨ c = 'x')
    (RE.star (RE.cls fun c => c = 'i' ∨ c = 'v' ∨ c = 'x'))
/-- `\S` -/
def nonWs : RE := RE.cls (fun c => !isPyWs c)

/-- `a\s+b` -/
def sp (a b : RE) : RE := RE.cat a (RE.cat ws1 b)

def altN (xs : List RE) : RE := xs.foldr RE.alt RE.fail

/-- `^#+\s*B\s*$` -/
def hx (b : RE) : Pat := ⟨RE.cat hashes (RE.cat ws0 (RE.cat b ws0)), true⟩

/-- `^#+\s*\d+[\.．]?\s*B\s*$` -/
def hxn (b : RE) : Pat :=
  ⟨RE.cat hashes (RE.cat ws0 (RE.cat digits1 (RE.cat dotOpt (RE.cat ws0 (RE.cat b ws0))))), true⟩

/-- `^#+\s*[ivx]+[\.．]?\s*B\s*$` -/
def hxr (b : RE) : Pat :=
  ⟨RE.cat hashes (RE.cat ws0 (RE.cat roman1 (RE.cat dotOpt (RE.cat ws0 (RE.cat b ws0))))), true⟩

/-- The `^#+\s*B\s*$` / `^#+\s*\d+[\.．]?\s*B\s*$` pair that the tables
repeat for almost every body. -/
def hpair (b : RE) : List Pat := [hx b, hxn b]

/-- `^B\s` (marker-less boilerplate form; prefix match). -/
def bare (b : RE) : Pat := ⟨RE.cat b wsC, false⟩

/-! ## The literal pattern tables

Transcribed one-to-one, in source order, from `exclude_patterns`
(llm_helper.py lines 402-476) and `section_patterns` (lines 479-794). -/

/-- `exclude_patterns`: boilerplate sections that are never extracted and
terminate the current section. -/
def excludePatterns : List Pat :=
  -- hash-marked forms (each with its numbered variant)
  hpair (ps "acknowledgement") ++
  hpair (w "funding") ++
  hpair (ps "declaration") ++
  hpair (ps "reference") ++
  hpair (w "appendix") ++
  hpair (w "appendices") ++
  hpair (w "bibliography") ++
  hpair (sp (w "competing") (ps "interest")) ++
  hpair (sp (w "author") (ps "contribution")) ++
  hpair (sp (w "data") (w "availability")) ++
  hpair (sp (w "conflict") (sp (w "of") (ps "interest"))) ++
  hpair (sp (w "ethics") (altN [w "statement", ps "declaration"])) ++
  hpair (sp (w "consent") (altN [sp (w "for") (w "publication"), sp (w "to") (w "participate")])) ++
  hpair (sp (w "availability") (sp (w "of") (sp (w "data") (sp (w "and") (ps "material"))))) ++
  hpair (sp (w "supplementary") (altN [ps "material", w "information"])) ++
  hpair (ps "abbreviation") ++
  hpair (w "nomenclature") ++
  hpair (w "glossary") ++
  -- marker-less forms (paragraph openings)
  [bare (ps "acknowledgement"),
   bare (w "funding"),
   bare (ps "declaration"),
   bare (ps "reference"),
   bare (w "appendix"),
   bare (w "appendices"),
   bare (w "bibliography"),
   bare (sp (w "competing") (ps "interest")),
   bare (sp (w "author") (ps "contribution")),
   bare (sp (w "data") (w "availability")),
   bare (sp (w "conflict") (sp (w "of") (ps "interest"))),
   bare (sp (w "ethics") (altN [w "statement", ps "declaration"])),
   bare (sp (w "supplementary") (altN [ps "material", w "information"]))] ++
  -- Chinese forms
  hpair (w "致谢") ++
  hpair (w "参考文献") ++
  hpair (w "附录") ++
  hpair (w "资助") ++
  hpair (w "基金") ++
  hpair (w "利益冲突") ++
  hpair (w "作者贡献") ++
  hpair (w "伦理声明") ++
  hpair (w "补充材料") ++
  hpair (w "缩略语")

/-- `section_patterns['Abstract']` (lines 480-488). -/
def abstractPatterns : List Pat :=
  [hx (w "abstract"),
   -- r'^abstract\s*:' (marker-less, prefix match)
   ⟨RE.cat (w "abstract") (RE.cat ws0 (RE.chr ':')), false⟩,
   -- r'^abstract\s+\S+' (marker-less, prefix match)
   ⟨RE.cat (w "abstract") (RE.cat ws1 (RE.cat nonWs (RE.star nonWs))), false⟩,
   hx (w "摘要"),
   -- r'^#+\s*a\s*b\s*s\s*t\s*r\s*a\s*c\s*t\s*$'
   hx (RE.cat (RE.chr 'a') (RE.cat ws0 (RE.cat (RE.chr 'b') (RE.cat ws0
      (RE.cat (RE.chr 's') (RE.cat ws0 (RE.cat (RE.chr 't') (RE.cat ws0
      (RE.cat (RE.chr 'r') (RE.cat ws0 (RE.cat (RE.chr 'a') (RE.cat ws0
      (RE.cat (RE.chr 'c') (RE.cat ws0 (RE.chr 't'))))))))))))))),
   hx (w "summary"),
   hx (sp (w "executive") (w "summary"))]

/-- `section_patterns['Introduction']` (lines 489-544). -/
def introductionPatterns : List Pat :=
  [hx (w "introduction"), hxn (w "introduction"), hxr (w "introduction")] ++
  hpair (w "background") ++
  hpair (w "motivation") ++
  hpair (w "overview") ++
  hpair (sp (w "background") (sp (w "and") (w "motivation"))) ++
  hpair (sp (w "related") (ps "work")) ++
  hpair (sp (w "literature") (w "review")) ++
  hpair (sp (w "background") (sp (w "and") (sp (w "related") (ps "work")))) ++
  hpair (w "preliminaries") ++
  hpair (sp (w "problem") (altN [w "statement", w "formulation", w "definition"])) ++
  hpair (sp (w "state") (sp (w "of") (sp (w "the") (w "art")))) ++
  hpair (sp (w "prior") (ps "work")) ++
  hpair (sp (w "previous") (ps "work")) ++
  hpair (sp (w "theoretical") (w "background")) ++
  hpair (w "context") ++
  hpair (w "scope") ++
  hpair (ps "objective") ++
  hpair (sp (ps "aim") (sp (w "and") (ps "objective"))) ++
  [hx (w "引言"), hx (w "绪论"), hx (w "前言"), hx (w "背景"), hx (w "研究背景"),
   hx (w "相关工作"), hx (w "文献综述"), hx (w "问题陈述"), hx (w "问题定义"),
   hx (w "研究现状"), hx (w "理论基础"), hx (w "预备知识"), hx (w "研究目标")]

/-- `section_patterns['Methods']` (lines 545-651). -/
def methodsPatterns : List Pat :=
  [hx (ps "method"), hxn (ps "method"), hxr (ps "method")] ++
  hpair (w "methodology") ++
  hpair (ps "material") ++
  hpair (sp (ps "material") (sp (w "and") (ps "method"))) ++
  -- r'^#+\s*experimental?\s*$': the `?` applies to the final letter `l`
  hpair (RE.cat (w "experimenta") (RE.alt (RE.chr 'l') RE.eps)) ++
  hpair (sp (w "experimental") (altN [ps "method", ps "procedure", w "section", w "setup", w "design"])) ++
  hpair (ps "experiment") ++
  hpair (ps "procedure") ++
  hpair (w "simulation") ++
  hpair (sp (w "simulation") (altN [w "setup", w "model", w "framework", w "environment"])) ++
  hpair (sp (w "numerical") (altN [w "simulation", ps "method", w "analysis"])) ++
  hpair (ps "model") ++
  hpair (w "modeling") ++
  hpair (w "modelling") ++
  hpair (sp (w "model") (altN [w "description", w "formulation", w "development", w "construction"])) ++
  hpair (sp (w "mathematical") (altN [w "model", w "formulation", w "framework"])) ++
  hpair (sp (w "theoretical") (altN [w "model", w "framework", w "formulation"])) ++
  hpair (w "implementation") ++
  hpair (sp (w "system") (altN [w "design", w "architecture", w "implementation", w "description"])) ++
  hpair (w "design") ++
  hpair (w "architecture") ++
  hpair (w "framework") ++
  hpair (ps "algorithm") ++
  hpair (w "approach") ++
  hpair (sp (w "proposed") (altN [w "method", w "approach", w "algorithm", w "model", w "system", w "framework"])) ++
  hpair (sp (w "our") (altN [w "method", w "approach", w "algorithm", w "model", w "system", w "framework"])) ++
  hpair (sp (w "the") (sp (w "proposed") (altN [w "method", w "approach", w "algorithm", w "model", w "system"]))) ++
  hpair (sp (w "technical") (altN [w "approach", w "details", w "description"])) ++
  hpair (sp (w "data") (altN [w "collection", w "acquisition", w "preparation", w "processing"])) ++
  hpair (w "dataset") ++
  hpair (sp (w "sample") (altN [w "preparation", w "collection"])) ++
  hpair (w "classification") ++
  hpair (w "formulation") ++
  hpair (sp (w "problem") (w "formulation")) ++
  hpair (sp (w "computational") (altN [ps "method", w "approach", w "framework"])) ++
  [hx (w "方法"), hx (w "实验方法"), hx (w "研究方法"), hx (w "材料与方法"),
   hx (w "实验设计"), hx (w "仿真"), hx (w "仿真设计"), hx (w "数值仿真"),
   hx (w "模型"), hx (w "建模"), hx (w "数学模型"), hx (w "理论模型"),
   hx (w "系统设计"), hx (w "算法"), hx (w "实现"), hx (w "技术方案"),
   hx (w "数据采集"), hx (w "数据处理"), hx (w "样本制备"), hx (w "分类"),
   hx (w "公式推导"), hx (w "计算方法")]

/-- `results?\s+and\s+discussions?` group (lines 653-656). -/
def rdComboPatterns : List Pat :=
  [hx (sp (ps "result") (sp (w "and") (ps "discussion"))),
   hxn (sp (ps "result") (sp (w "and") (ps "discussion"))),
   hxr (sp (ps "result") (sp (w "and") (ps "discussion")))]

/-- The bare `results?` entries of the table (lines 658-660): the shape a
standalone Results heading matches. -/
def resultsBarePatterns : List Pat :=
  [hx (ps "result"), hxn (ps "result"), hxr (ps "result")]

/-- Entries between the bare Results and bare Discussion groups
(lines 661-670). -/
def rdMidPatterns : List Pat :=
  hpair (sp (w "experimental") (ps "result")) ++
  hpair (sp (w "simulation") (ps "result")) ++
  hpair (sp (w "numerical") (ps "result")) ++
  hpair (ps "finding") ++
  hpair (ps "observation")

/-- The bare `discussions?` entries of the table (lines 672-674): the shape
a standalone Discussion heading matches. -/
def discussionBarePatterns : List Pat :=
  [hx (ps "discussion"), hxn (ps "discussion"), hxr (ps "discussion")]

/-- Remaining English entries of `section_patterns['Results & Discussion']`
(lines 676-718). -/
def rdRestPatterns : List Pat :=
  hpair (w "evaluation") ++
  hpair (sp (w "performance") (altN [w "evaluation", w "analysis", w "assessment"])) ++
  hpair (w "analysis") ++
  hpair (sp (w "experimental") (altN [w "evaluation", w "analysis"])) ++
  hpair (sp (w "data") (w "analysis")) ++
  hpair (sp (w "statistical") (w "analysis")) ++
  hpair (w "verification") ++
  hpair (w "validation") ++
  hpair (sp (w "model") (altN [w "verification", w "validation"])) ++
  hpair (sp (w "experimental") (w "validation")) ++
  hpair (sp (w "case") (RE.cat (w "stud") (altN [w "y", w "ies"]))) ++
  hpair (w "application") ++
  hpair (ps "application") ++
  hpair (ps "experiment") ++
  hpair (w "comparison") ++
  hpair (sp (w "comparative") (altN [w "analysis", w "study", w "evaluation"])) ++
  hpair (w "performance") ++
  hpair (w "benchmark") ++
  hpair (w "benchmarking")

/-- Chinese entries of `section_patterns['Results & Discussion']`
(lines 720-739). -/
def rdChinesePatterns : List Pat :=
  [hx (w "结果"), hx (w "讨论"), hx (w "结果与讨论"), hx (w "实验结果"),
   hx (w "仿真结果"), hx (w "数值结果"), hx (w "分析"), hx (w "性能分析"),
   hx (w "数据分析"), hx (w "统计分析"), hx (w "评估"), hx (w "验证"),
   hx (w "模型验证"), hx (w "实验验证"), hx (w "案例研究"), hx (w "应用"),
   hx (w "比较"), hx (w "对比分析"), hx (w "性能评估"), hx (w "基准测试")]

/-- `section_patterns['Results & Discussion']` (lines 652-740). -/
def rdPatterns : List Pat :=
  rdComboPatterns ++ resultsBarePatterns ++ rdMidPatterns ++
  discussionBarePatterns ++ rdRestPatterns ++ rdChinesePatterns

/-- `section_patterns['Conclusion']` (lines 741-793). -/
def conclusionPatterns : List Pat :=
  [hx (ps "conclusion"), hxn (ps "conclusion"), hxr (ps "conclusion")] ++
  hpair (sp (w "concluding") (ps "remark")) ++
  hpair (sp (w "summary") (sp (w "and") (ps "conclusion"))) ++
  hpair (sp (ps "conclusion") (sp (w "and") (sp (w "future") (ps "work")))) ++
  hpair (sp (ps "conclusion") (sp (w "and") (w "outlook"))) ++
  hpair (w "summary") ++
  hpair (sp (w "final") (ps "remark")) ++
  hpair (sp (w "closing") (ps "remark")) ++
  hpair (sp (w "future") (ps "work")) ++
  hpair (sp (w "future") (altN [ps "direction", w "research", ps "perspective"])) ++
  hpair (w "outlook") ++
  hpair (ps "perspective") ++
  hpair (sp (w "summary") (sp (w "and") (sp (w "future") (ps "work")))) ++
  hpair (sp (w "summary") (sp (w "and") (w "outlook"))) ++
  hpair (ps "contribution") ++
  hpair (ps "implication") ++
  [hx (w "结论"), hx (w "总结"), hx (w "结束语"), hx (w "展望"),
   hx (w "未来工作"), hx (w "总结与展望"), hx (w "结论与展望"),
   hx (w "研究展望"), hx (w "未来研究方向"), hx (w "本文贡献"), hx (w "主要贡献")]

/-- `section_patterns` in its Python insertion order (first matching
category wins in `get_section_name_for_header`). -/
def sectionPatternTable : List (String × List Pat) :=
  [("Abstract", abstractPatterns),
   ("Introduction", introductionPatterns),
   ("Methods", methodsPatterns),
   ("Results & Discussion", rdPatterns),
   ("Conclusion", conclusionPatterns)]

/-! ## Heading classifier

`get_heading_level` (llm_helper.py lines 796-820) first runs
`re.search(r'(\d+(?:[\.．]\d+)*)[\.．](?:\s|[A-Za-z])', line)`.  With
Python's leftmost-then-greedy semantics, the group can only succeed on the
maximal digit-dot chain starting at a position (a shorter chain is always
followed by a digit after the dot, which fails the `(?:\s|[A-Za-z])`
lookahead), so the search reduces to: at the leftmost digit position whose
maximal `N(.N)*` chain is immediately followed by a dot and then a
whitespace or ASCII letter, return that chain as the group. -/

/-- Maximal `N(.N)*` chain starting at a digit; returns (chain, rest). -/
def scanChain : List Char → List Char × List Char
  | [] => ([], [])
  | [c] => if c.isDigit then ([c], []) else ([], [c])
  | c :: d :: ds =>
    if c.isDigit then
      if d.isDigit then
        let (g, r) := scanChain (d :: ds)
        (c :: g, r)
      else if isDotSep d then
        match ds with
        | [] => ([c], d :: ds)
        | e :: _ =>
          if e.isDigit then
            let (g, r) := scanChain ds
            (c :: d :: g, r)
          else ([c], d :: ds)
      else ([c], d :: ds)
    else ([], c :: d :: ds)

/-- The numbering group of `re.search` at one starting position. -/
def numberingHere (cs : List Char) : Option (List Char) :=
  match cs with
  | [] => none
  | c :: _ =>
    if c.isDigit then
      match scanChain cs with
      | (g, s :: t :: _) =>
        if isDotSep s ∧ (isPyWs t ∨ isAsciiAlpha t) then some g else none
      | _ => none
    else none

/-- Leftmost successful numbering group (the `re.search` loop). -/
def findNumbering : List Char → Option (List Char)
  | [] => none
  | c :: cs =>
    match numberingHere (c :: cs) with
    | some g => some g
    | none => findNumbering cs

/-- Leading `#` run. -/
def takeHashes : List Char → Nat × List Char
  | [] => (0, [])
  | c :: cs =>
    if c = '#' then
      let (n, r) := takeHashes cs
      (n + 1, r)
    else (0, c :: cs)

/-- `re.match(r'^(#+)\s', line)`: length of the leading marker run when it
is followed by a whitespace character (backtracking to a shorter run can
never help, since the next character would be `#`). -/
def markerLevel (cs : List Char) : Nat :=
  match takeHashes cs with
  | (0, _) => 0
  | (_ + 1, []) => 0
  | (n + 1, d :: _) => if isPyWs d then n + 1 else 0

/-- `get_heading_level` (lines 796-820): numbering depth first
(`numbering.replace('．', '.').count('.') + 1`), marker depth second,
otherwise 0. -/
def getHeadingLevel (line : String) : Nat :=
  match findNumbering line.data with
  | some g => (g.map fun c => if c = '．' then '.' else c).count '.' + 1
  | none => markerLevel line.data

/-- `get_section_name_for_header` (lines 822-831): first category of
`section_patterns` with any matching pattern, else the empty string. -/
def firstMatchName : List (String × List Pat) → String → String
  | [], _ => ""
  | (n, pats) :: rest, ls => if anyMatchCI pats ls then n else firstMatchName rest ls

def getSectionNameForHeader (line : String) : String :=
  firstMatchName sectionPatternTable (pyStrip line)

/-- `is_exclude_section` (lines 833-839). -/
def isExcludeSection (line : String) : Bool :=
  anyMatchCI excludePatterns (pyStrip line)

/-- `re.match(r'^#+\s', line)` (no IGNORECASE). -/
def isHashHeading (s : String) : Bool :=
  Pat.matches ⟨RE.cat hashes wsC, false⟩ s

/-- `re.match(r'^#+\s*\d+[\.．]?\s', line)` (line 892). -/
def isNumberedHeading (s : String) : Bool :=
  Pat.matches ⟨RE.cat hashes (RE.cat ws0 (RE.cat digits1 (RE.cat dotOpt wsC))), false⟩ s

/-! ## Boundary resolver

The section-end scan of `extract_sections_fallback` (lines 864-899). -/

/-- Whether the scan breaks (sets `section_end`) at a given line. -/
def lineBreaks (name : String) (lvl : Nat) (line : String) : Bool :=
  let ls := pyStrip line
  if isExcludeSection ls then true
  else if isHashHeading ls then
    let cur := getHeadingLevel ls
    if 0 < cur ∧ cur ≤ lvl then
      let m := getSectionNameForHeader ls
      if m ≠ "" ∧ m ≠ name then true
      else if cur = lvl ∧ m = "" then isNumberedHeading ls
      else false
    else false
  else false

def findEndFrom (total : Nat) (name : String) (lvl : Nat) : List String → Nat → Nat
  | [], _ => total
  | l :: rest, i => if lineBreaks name lvl l then i else findEndFrom total name lvl rest (i + 1)

/-- Scan from `start + 1` for the first breaking line; end of document if
none (lines 864-902: `section_end = -1` becomes `len(lines)`). -/
def findSectionEnd (lines : List String) (name : String) (lvl : Nat) (start : Nat) : Nat :=
  findEndFrom lines.length name lvl (lines.drop (start + 1)) (start + 1)

/-! ## Heuristic extractor (`extract_sections_fallback`, lines 381-946) -/

/-- First line whose stripped text matches any pattern of the category
(lines 848-858); returns the index and the stripped line. -/
def findSectionStart (pats : List Pat) : List String → Nat → Option (Nat × String)
  | [], _ => none
  | l :: rest, i =>
    let ls := pyStrip l
    if anyMatchCI pats ls then some (i, ls) else findSectionStart pats rest (i + 1)

/-- Lines 853-856: the heading level of the matched start line; a
marker-less match (level 0) is treated as level 1. -/
def fallbackLevel (st : String) : Nat :=
  let lvl0 := getHeadingLevel st
  if lvl0 = 0 then 1 else lvl0

/-- One iteration of the `for section_name, patterns in section_patterns`
loop: locate the start, derive the level (0 becomes 1 for marker-less
matches), resolve the end, return `'\n'.join(lines[start:end])`. -/
def extractOneSection (lines : List String) (name : String) (pats : List Pat) : Option String :=
  match findSectionStart pats lines 0 with
  | none => none
  | some (i, ls) =>
    let e := findSectionEnd lines name (fallbackLevel ls) i
    some (joinNl ((lines.drop i).take (e - i)))

def fbStep (lines : List String) (acc : List (String × String)) (np : String × List Pat) :
    List (String × String) :=
  match extractOneSection lines np.1 np.2 with
  | none => acc
  | some c => alSet acc np.1 c

def fallbackSectionsRaw (lines : List String) : List (String × String) :=
  sectionPatternTable.foldl (fbStep lines) []

/-- Lines 908-913: if both `Results` and `Discussion` ended up as keys,
concatenate them into `Results & Discussion` and delete both.  (The five
table categories never produce those keys, so this is unreachable, but it
is part of the function.) -/
def mergeResultsDiscussion (m : List (String × String)) : List (String × String) :=
  match alGet m "Results", alGet m "Discussion" with
  | some r, some d =>
    alErase (alErase (alSet m "Results & Discussion" (r ++ "\n\n" ++ d)) "Results") "Discussion"
  | _, _ => m

/-- Lines 916-931: collect every level-1 `#`-marked heading recognised
neither as a canonical section nor as an excluded one. -/
def collectUnrec : List String → Nat → List (Nat × String × Nat)
  | [], _ => []
  | l :: rest, i =>
    let ls := pyStrip l
    (if isHashHeading ls then
       let lvl := getHeadingLevel ls
       if lvl = 1 then
         if getSectionNameForHeader ls = "" ∧ ¬ isExcludeSection ls then [(i, ls, lvl)] else []
       else []
     else []) ++ collectUnrec rest (i + 1)

/-- `extract_sections_fallback(markdown_content, return_unrecognized=True)`:
the section map and the unrecognized-heading list. -/
def extract_sections_fallback (content : String) :
    List (String × String) × List (Nat × String × Nat) :=
  let lines := splitLines content
  (mergeResultsDiscussion (fallbackSectionsRaw lines), collectUnrec lines 0)

/-! ## A model of Python's `json.loads`

The repair ladder of `extract_sections` (lines 209-283) distinguishes one
error condition: whether `str(e)` contains "Unterminated string" (raised
when the input ends inside a string literal).  The parser below models
`json.loads` as an executable recursive-descent parser over the decoded
value type `JVal`; JSON numbers keep their lexeme (no floating-point
semantics are needed), and objects are built with Python-dict assignment
semantics (a duplicated key keeps its first position and the last value).
A `\uXXXX` escape denoting a lone surrogate, which Lean's `Char` cannot
represent, decodes to `Char.ofNat`'s default; no document in scope
contains one. -/

inductive JErr where
  | unterminatedString
  | other

inductive JVal where
  | null
  | bool (b : Bool)
  | num (lexeme : String)
  | str (s : String)
  | arr (xs : List JVal)
  | obj (kvs : List (String × JVal))

/-- Opening brace character, kept out of character literals. -/
def lbrace : Char := Char.ofNat 123

/-- Closing brace character. -/
def rbrace : Char := Char.ofNat 125

/-- Single-quote character. -/
def squote : Char := Char.ofNat 39

def isJsonWs (c : Char) : Bool := c = ' ' ∨ c = '\t' ∨ c = '\n' ∨ c = '\r'

def jSkipWs (cs : List Char) : List Char := cs.dropWhile isJsonWs

def hexVal (c : Char) : Option Nat :=
  if '0' ≤ c ∧ c ≤ '9' then some (c.toNat - 48)
  else if 'a' ≤ c ∧ c ≤ 'f' then some (c.toNat - 87)
  else if 'A' ≤ c ∧ c ≤ 'F' then some (c.toNat - 55)
  else none

/-- JSON string body after the opening quote.  Reaching the end of input
(also right after a backslash) is the "Unterminated string" error; a bad
escape or a raw control character is some other `JSONDecodeError`. -/
def jParseStringBody : List Char → List Char → Except JErr (String × List Char)
  | [], _ => .error .unterminatedString
  | c :: cs, acc =>
    if c = '"' then .ok (String.mk acc.reverse, cs)
    else if c = '\\' then
      match cs with
      | [] => .error .unterminatedString
      | e :: cs2 =>
        if e = '"' then jParseStringBody cs2 ('"' :: acc)
        else if e = '\\' then jParseStringBody cs2 ('\\' :: acc)
        else if e = '/' then jParseStringBody cs2 ('/' :: acc)
        else if e = 'b' then jParseStringBody cs2 ('\x08' :: acc)
        else if e = 'f' then jParseStringBody cs2 ('\x0c' :: acc)
        else if e = 'n' then jParseStringBody cs2 ('\n' :: acc)
        else if e = 'r' then jParseStringBody cs2 ('\r' :: acc)
        else if e = 't' then jParseStringBody cs2 ('\t' :: acc)
        else if e = 'u' then
          match cs2 with
          | h1 :: h2 :: h3 :: h4 :: cs3 =>
            match hexVal h1, hexVal h2, hexVal h3, hexVal h4 with
            | some a, some b, some c2, some d =>
              jParseStringBody cs3 (Char.ofNat (((a * 16 + b) * 16 + c2) * 16 + d) :: acc)
            | _, _, _, _ => .error .other
          | _ => .error .other
        else .error .other
    else if c.toNat < 32 then .error .other
    else jParseStringBody cs (c :: acc)

def spanDigits (cs : List Char) : List Char × List Char :=
  (cs.takeWhile Char.isDigit, cs.dropWhile Char.isDigit)

/-- JSON number lexeme: `-? (0 | [1-9][0-9]*) frac? exp?`. -/
def jParseNumber (cs : List Char) : Except JErr (String × List Char) :=
  let (sign, cs1) := match cs with
    | '-' :: r => (['-'], r)
    | r => (([] : List Char), r)
  match cs1 with
  | [] => .error .other
  | c :: _ =>
    if ¬ c.isDigit then .error .other
    else
      let (ds, cs2) := spanDigits cs1
      if c = '0' ∧ ds.length > 1 then .error .other
      else
        let (fracPart, cs3) :=
          match cs2 with
          | '.' :: r =>
            match spanDigits r with
            | ([], _) => (([] : List Char), cs2)
            | (fs, r2) => ('.' :: fs, r2)
          | _ => (([] : List Char), cs2)
        let dotNoDigits : Bool := fracPart.isEmpty &&
          (match cs2 with | '.' :: _ => true | _ => false)
        if dotNoDigits then .error .other
        else
          let (expPart, cs4) :=
            match cs3 with
            | e :: r =>
              if e = 'e' ∨ e = 'E' then
                let (es, r1) := match r with
                  | s :: r2 => if s = '+' ∨ s = '-' then ([e, s], r2) else ([e], r)
                  | [] => ([e], r)
                match spanDigits r1 with
                | ([], _) => (([] : List Char), cs3)
                | (xs, r2) => (es ++ xs, r2)
              else (([] : List Char), cs3)
            | [] => (([] : List Char), cs3)
          .ok (String.mk (sign ++ ds ++ fracPart ++ expPart), cs4)

mutual

def jParseVal : Nat → List Char → Except JErr (JVal × List Char)
  | 0, _ => .error .other
  | fuel + 1, cs =>
    match cs with
    | [] => .error .other
    | c :: rest =>
      if c = '"' then
        match jParseStringBody rest [] with
        | .ok (s, r) => .ok (.str s, r)
        | .error e => .error e
      else if c = lbrace then jParseObjStart fuel (jSkipWs rest)
      else if c = '[' then jParseArrStart fuel (jSkipWs rest)
      else if c = 't' then
        if listStartsWith ['r', 'u', 'e'] rest then .ok (.bool true, rest.drop 3)
        else .error .other
      else if c = 'f' then
        if listStartsWith ['a', 'l', 's', 'e'] rest then .ok (.bool false, rest.drop 4)
        else .error .other
      else if c = 'n' then
        if listStartsWith ['u', 'l', 'l'] rest then .ok (.null, rest.drop 3)
        else .error .other
      else if c = '-' ∨ c.isDigit then
        match jParseNumber cs with
        | .ok (s, r) => .ok (.num s, r)
        | .error e => .error e
      else .error .other

def jParseObjStart : Nat → List Char → Except JErr (JVal × List Char)
  | 0, _ => .error .other
  | fuel + 1, cs =>
    match cs with
    | [] => .error .other
    | c :: rest =>
      if c = rbrace then .ok (.obj [], rest)
      else jParseObjMember fuel (c :: rest) []

def jParseObjMember : Nat → List Char → List (String × JVal) → Except JErr (JVal × List Char)
  | 0, _, _ => .error .other
  | fuel + 1, cs, acc =>
    match cs with
    | [] => .error .other
    | c :: rest =>
      if c = '"' then
        match jParseStringBody rest [] with
        | .error e => .error e
        | .ok (k, r1) =>
          match jSkipWs r1 with
          | ':' :: r2 =>
            match jParseVal fuel (jSkipWs r2) with
            | .error e => .error e
            | .ok (v, r3) =>
              let acc2 := alSet acc k v
              match jSkipWs r3 with
              | ',' :: r4 => jParseObjMember fuel (jSkipWs r4) acc2
              | d :: r4 => if d = rbrace then .ok (.obj acc2, r4) else .error .other
              | [] => .error .other
          | _ => .error .other
      else .error .other

def jParseArrStart : Nat → List Char → Except JErr (JVal × List Char)
  | 0, _ => .error .other
  | fuel + 1, cs =>
    match cs with
    | [] => .error .other
    | c :: rest =>
      if c = ']' then .ok (.arr [], rest)
      else jParseArrElem fuel (c :: rest) []

def jParseArrElem : Nat → List Char → List JVal → Except JErr (JVal × List Char)
  | 0, _, _ => .error .other
  | fuel + 1, cs, acc =>
    match jParseVal fuel cs with
    | .error e => .error e
    | .ok (v, r1) =>
      match jSkipWs r1 with
      | ',' :: r2 => jParseArrElem fuel (jSkipWs r2) (v :: acc)
      | d :: r2 => if d = ']' then .ok (.arr (v :: acc).reverse, r2) else .error .other
      | [] => .error .other

end

/-- Model of `json.loads`: a single JSON value with nothing but whitespace
around it ("Extra data" otherwise). -/
def jsonLoads (s : String) : Except JErr JVal :=
  match jParseVal (s.data.length + 2) (jSkipWs s.data) with
  | .ok (v, r) => if jSkipWs r = [] then .ok v else .error .other
  | .error e => .error e

/-! ## A model of Python's `ast.literal_eval`

Only the literal forms that a model response could plausibly take are
modelled: single- or double-quoted strings with the common escapes,
`True`/`False`/`None`, signed int/float literals, lists, tuples and sets
(both decoded to `JVal.arr`), and dicts with string keys (a dict with a
non-string literal key, implicit string concatenation, string prefixes and
`\N`/octal/`\U` escapes are rejected by the model although Python would
accept them; nothing in the repository depends on those). -/

def pyLitEscape (e : Char) : Option (List Char) :=
  if e = '\\' then some ['\\']
  else if e = squote then some [squote]
  else if e = '"' then some ['"']
  else if e = 'a' then some ['\x07']
  else if e = 'b' then some ['\x08']
  else if e = 'f' then some ['\x0c']
  else if e = 'n' then some ['\n']
  else if e = 'r' then some ['\r']
  else if e = 't' then some ['\t']
  else if e = 'v' then some ['\x0b']
  else none

/-- Python string-literal body (quote character `q`); an unknown escape
keeps the backslash, a raw newline ends the source line and fails. -/
def pyLitStringBody (q : Char) : List Char → List Char → Option (String × List Char)
  | [], _ => none
  | c :: cs, acc =>
    if c = q then some (String.mk acc.reverse, cs)
    else if c = '\\' then
      match cs with
      | [] => none
      | e :: cs2 =>
        match pyLitEscape e with
        | some out => pyLitStringBody q cs2 (out.reverse ++ acc)
        | none =>
          if e = 'x' then
            match cs2 with
            | h1 :: h2 :: cs3 =>
              match hexVal h1, hexVal h2 with
              | some a, some b => pyLitStringBody q cs3 (Char.ofNat (a * 16 + b) :: acc)
              | _, _ => none
            | _ => none
          else if e = 'u' then
            match cs2 with
            | h1 :: h2 :: h3 :: h4 :: cs3 =>
              match hexVal h1, hexVal h2, hexVal h3, hexVal h4 with
              | some a, some b, some c2, some d =>
                pyLitStringBody q cs3 (Char.ofNat (((a * 16 + b) * 16 + c2) * 16 + d) :: acc)
              | _, _, _, _ => none
            | _ => none
          else if e = '\n' then pyLitStringBody q cs2 acc
          else pyLitStringBody q cs2 (e :: '\\' :: acc)
    else if c = '\n' ∨ c = '\r' then none
    else pyLitStringBody q cs (c :: acc)

/-- Python number literal: optional sign, decimal int or float lexeme. -/
def pyLitNumber (cs : List Char) : Option (String × List Char) :=
  let (sign, cs1) := match cs with
    | c :: r => if c = '-' ∨ c = '+' then ([c], r) else (([] : List Char), cs)
    | [] => (([] : List Char), cs)
  let (ip, cs2) := spanDigits cs1
  let (fp, cs3) :=
    match cs2 with
    | '.' :: r =>
      let (fs, r2) := spanDigits r
      ('.' :: fs, r2)
    | _ => (([] : List Char), cs2)
  let zeroLead : Bool := (match ip with | '0' :: _ :: _ => true | _ => false) && fp.isEmpty
  if ip = [] ∧ fp.length ≤ 1 then none
  else if zeroLead then none
  else
    let (ep, cs4) :=
      match cs3 with
      | e :: r =>
        if e = 'e' ∨ e = 'E' then
          let (es, r1) := match r with
            | s :: r2 => if s = '+' ∨ s = '-' then ([e, s], r2) else ([e], r)
            | [] => ([e], r)
          match spanDigits r1 with
          | ([], _) => (([] : List Char), cs3)
          | (xs, r2) => (es ++ xs, r2)
        else (([] : List Char), cs3)
      | [] => (([] : List Char), cs3)
    some (String.mk (sign ++ ip ++ fp ++ ep), cs4)

mutual

def pyLitVal : Nat → List Char → Option (JVal × List Char)
  | 0, _ => none
  | fuel + 1, cs =>
    match cs with
    | [] => none
    | c :: rest =>
      if c = squote ∨ c = '"' then
        match pyLitStringBody c rest [] with
        | some (s, r) => some (.str s, r)
        | none => none
      else if c = 'T' then
        if listStartsWith ['r', 'u', 'e'] rest then some (.bool true, rest.drop 3) else none
      else if c = 'F' then
        if listStartsWith ['a', 'l', 's', 'e'] rest then some (.bool false, rest.drop 4) else none
      else if c = 'N' then
        if listStartsWith ['o', 'n', 'e'] rest then some (.null, rest.drop 3) else none
      else if c = '-' ∨ c = '+' ∨ c.isDigit ∨ c = '.' then
        match pyLitNumber cs with
        | some (s, r) => some (.num s, r)
        | none => none
      else if c = '[' then pyLitSeqLoop fuel ']' (jSkipWs rest) []
      else if c = '(' then pyLitSeqLoop fuel ')' (jSkipWs rest) []
      else if c = lbrace then pyLitBrace fuel (jSkipWs rest)
      else none

def pyLitSeqLoop : Nat → Char → List Char → List JVal → Option (JVal × List Char)
  | 0, _, _, _ => none
  | fuel + 1, close, cs, acc =>
    match cs with
    | [] => none
    | c :: rest =>
      if c = close then some (.arr acc.reverse, rest)
      else
        match pyLitVal fuel (c :: rest) with
        | none => none
        | some (v, r1) =>
          match jSkipWs r1 with
          | ',' :: r2 => pyLitSeqLoop fuel close (jSkipWs r2) (v :: acc)
          | d :: r2 => if d = close then some (.arr (v :: acc).reverse, r2) else none
          | [] => none

def pyLitBrace : Nat → List Char → Option (JVal × List Char)
  | 0, _ => none
  | fuel + 1, cs =>
    match cs with
    | [] => none
    | c :: rest =>
      if c = rbrace then some (.obj [], rest)
      else
        match pyLitVal fuel (c :: rest) with
        | none => none
        | some (v, r1) =>
          match jSkipWs r1 with
          | ':' :: r2 =>
            match v with
            | .str k =>
              match pyLitVal fuel (jSkipWs r2) with
              | none => none
              | some (v2, r3) =>
                match jSkipWs r3 with
                | ',' :: r4 => pyLitDictRest fuel (jSkipWs r4) (alSet [] k v2)
                | d :: r4 => if d = rbrace then some (.obj (alSet [] k v2), r4) else none
                | [] => none
            | _ => none
          | ',' :: r2 => pyLitSeqLoop fuel rbrace (jSkipWs r2) [v]
          | d :: r2 => if d = rbrace then some (.arr [v], r2) else none
          | [] => none

def pyLitDictRest : Nat → List Char → List (String × JVal) → Option (JVal × List Char)
  | 0, _, _ => none
  | fuel + 1, cs, acc =>
    match cs with
    | [] => none
    | c :: rest =>
      if c = rbrace then some (.obj acc, rest)
      else
        match pyLitVal fuel (c :: rest) with
        | none => none
        | some (k, r1) =>
          match k with
          | .str ks =>
            match jSkipWs r1 with
            | ':' :: r2 =>
              match pyLitVal fuel (jSkipWs r2) with
              | none => none
              | some (v, r3) =>
                match jSkipWs r3 with
                | ',' :: r4 => pyLitDictRest fuel (jSkipWs r4) (alSet acc ks v)
                | d :: r4 => if d = rbrace then some (.obj (alSet acc ks v), r4) else none
                | [] => none
            | _ => none
          | _ => none

end

/-- Model of `ast.literal_eval` restricted as documented above. -/
def literalEval (s : String) : Option JVal :=
  match pyLitVal (s.data.length + 2) (jSkipWs s.data) with
  | some (v, r) => if jSkipWs r = [] then some v else none
  | none => none

/-! ## The extraction bridge (`LLMHelper.extract_sections`, lines 168-283) -/

/-- Lines 210-222: strip, remove a leading ```` ```json ```` or ```` ``` ````
fence (`if`/`elif`), remove a trailing ```` ``` ````, strip again. -/
def stripFencesExtract (r : String) : String :=
  let a := pyStrip r
  let b :=
    if pyStartsWith a "```json" then String.mk (a.data.drop 7)
    else if pyStartsWith a "```" then String.mk (a.data.drop 3)
    else a
  let c := if pyEndsWith b "```" then String.mk (b.data.take (b.data.length - 3)) else b
  pyStrip c

def jsonEscCls (d : Char) : Bool :=
  d = '"' ∨ d = '\\' ∨ d = '/' ∨ d = 'b' ∨ d = 'f' ∨ d = 'n' ∨ d = 'r' ∨ d = 't' ∨ d = 'u'

/-- Line 229: `re.sub(r'(?<!\\)\\(?!["\\/bfnrtu])', r'\\\\', response)`.
`re.sub` scans the original string left to right; the lookbehind inspects
the original preceding character. -/
def fixBsGo : Option Char → List Char → List Char
  | _, [] => []
  | prev, c :: cs =>
    let lone : Bool := (c = '\\') && (prev ≠ some '\\') &&
      (match cs with | [] => true | d :: _ => !jsonEscCls d)
    if lone then '\\' :: '\\' :: fixBsGo (some c) cs
    else c :: fixBsGo (some c) cs

def fixBackslashes (s : String) : String := String.mk (fixBsGo none s.data)

/-- Lines 256-264: right-strip, close an unterminated string with `"`,
close the object with a newline and brace. -/
def healTruncated (r : String) : String :=
  let f := pyRstrip r
  let f1 := if ¬ pyEndsWith f "\"" then f ++ "\"" else f
  if ¬ pyEndsWith f1 "\x7d" then f1 ++ "\n\x7d" else f1

/-- The response-parsing part of `extract_sections` (lines 209-283):
fence stripping and backslash escaping, `json.loads`, the
unterminated-string healing retry, and the `ast.literal_eval` fallback;
`None` when everything fails. -/
def parseSectionsResponse (resp : String) : Option JVal :=
  let payload := fixBackslashes (stripFencesExtract resp)
  match jsonLoads payload with
  | .ok v => some v
  | .error e =>
    let healed : Option JVal :=
      match e with
      | .unterminatedString =>
        match jsonLoads (healTruncated payload) with
        | .ok v => some v
        | .error _ => none
      | .other => none
    match healed with
    | some v => some v
    | none => literalEval payload

/-- Lines 192-201: `max_tokens` by number of requested sections. -/
def chooseMaxTokens (missing : Option (List String)) : Nat :=
  match missing with
  | some ms =>
    if ¬ ms.isEmpty ∧ ms.length = 1 then 8000
    else if ¬ ms.isEmpty ∧ ms.length ≤ 3 then 10000
    else if ¬ ms.isEmpty ∧ ms.length ≤ 5 then 12000
    else 16000
  | none => 16000

/-- Lines 181-187: placeholder substitution in the prompt template. -/
def buildExtractPrompt (template content : String) (missing : Option (List String)) : String :=
  let p := pyReplace template "\x7bMARKDOWN_CONTENT\x7d" content
  match missing with
  | some ms =>
    if ¬ ms.isEmpty ∧ pyContains p "\x7bTARGET_SECTIONS_LIST\x7d" then
      pyReplace p "\x7bTARGET_SECTIONS_LIST\x7d" (joinNl (ms.map fun s => "- **" ++ s ++ "**"))
    else p
  | none => p

/-- `extract_sections`, parameterised by the model-call primitive
(prompt and `max_tokens`; an empty or absent response is a failure,
line 205). -/
def extract_sections_model (template content : String) (missing : Option (List String))
    (call : String → Nat → Option String) : Option JVal :=
  match call (buildExtractPrompt template content missing) (chooseMaxTokens missing) with
  | none => none
  | some r => if r = "" then none else parseSectionsResponse r

/-! ## The classification bridge (`classify_section_titles`, lines 286-378) -/

def enumFrom {α : Type} (i : Nat) : List α → List (Nat × α)
  | [] => []
  | x :: xs => (i, x) :: enumFrom (i + 1) xs

/-- Lines 300 and 302-337: the classification prompt.  `\x7b`/`\x7d` are
the literal braces of the example output block. -/
def buildClassifyPrompt (headers : List (Nat × String × Nat)) : String :=
  let headersText := joinNl ((enumFrom 0 headers).map fun q => natToStr (q.1 + 1) ++ ". " ++ q.2.2.1)
  "You are an expert in analyzing research paper structures.\n\nI have extracted some section headers from a research paper, but I cannot determine which standard section type they belong to.\n\nPlease classify each header into ONE of these standard section types:\n- Abstract\n- Introduction (background, motivation, related work, literature review, preliminaries, problem statement, objectives, context, scope, theoretical background)\n- Methods (methodology, experimental setup, materials, model, modelling, algorithm, classification, formulation, approach, framework, implementation, design, architecture, simulation, numerical methods, data collection, procedures, computational methods, proposed method, system design)\n- Results (findings, evaluation, experiments, verification, validation, performance, comparison, analysis, data analysis, experimental results, simulation results, numerical results, observations, benchmarking, case study, application)\n- Discussion (analysis, interpretation, implications, comparative analysis)\n- Conclusion (summary, future work, concluding remarks, outlook, perspectives, contributions, final remarks)\n\n**Important classification rules**:\n1. **Paper title** (usually the first header) → \"Unknown\"\n2. **Article Info**, **Nomenclature**, **Acknowledgements**, **References**, **Appendix**, **Funding**, **Ethics** → \"Unknown\"\n3. **Classification**, **Modelling**, **Model**, **Algorithm**, **Framework**, **Formulation**, **Implementation**, **Design**, **Simulation**, **Proposed Method** → \"Methods\"\n4. **Verification**, **Validation**, **Evaluation**, **Comparison**, **Experiments**, **Performance**, **Benchmark**, **Case Study**, **Application** → \"Results\"\n5. **Analysis**, **Interpretation**, **Implications** → \"Discussion\" (but \"Data Analysis\" → \"Results\")\n6. **Summary**, **Future Work**, **Outlook**, **Perspectives**, **Contributions** → \"Conclusion\"\n7. If a header contains numbered sections (e.g., \"2. Classification\", \"3. Modelling\"), classify based on the content, not the number\n8. If uncertain, use \"Unknown\"\n\nHeaders to classify:\n"
  ++ headersText ++
  "\n\nReturn ONLY a JSON object mapping each header number to its section type.\n\nExample output format:\n\x7b\n  \"1\": \"Unknown\",\n  \"2\": \"Methods\",\n  \"3\": \"Methods\",\n  \"4\": \"Results\"\n\x7d\n\nYour response (JSON only):"

/-- Lines 352-359 (classification response cleanup; two separate `if`s for
the leading fence, unlike `extract_sections`). -/
def stripFencesClassify (r : String) : String :=
  let a := pyStrip r
  let b := if pyStartsWith a "```json" then String.mk (a.data.drop 7) else a
  let b2 := if pyStartsWith b "```" then String.mk (b.data.drop 3) else b
  let c := if pyEndsWith b2 "```" then String.mk (b2.data.take (b2.data.length - 3)) else b2
  pyStrip c

/-- Lines 363-371: map numeric indices back to header text, dropping
`"Unknown"`.  A classification value that is valid JSON but not a string
is dropped here, where Python would keep the non-string object; every
in-scope consumer only ever matches such values against string keys. -/
def classifyMapBack (headers : List (Nat × String × Nat)) (kvs : List (String × JVal)) :
    List (String × String) :=
  (enumFrom 0 headers).foldl
    (fun acc q =>
      match alGet kvs (natToStr (q.1 + 1)) with
      | some (.str ty) => if ty ≠ "Unknown" then alSet acc q.2.2.1 ty else acc
      | _ => acc)
    []

/-- `classify_section_titles`, parameterised by the model-call primitive;
the second component counts the `call_llm` invocations performed.  For a
response that parses to a non-object, the Python `key in classification` /
`classification[key]` pair either raises `TypeError` (caught, `None`) or
finds no key (empty result); both are reproduced. -/
def classify_section_titles (call : String → Option String)
    (headers : List (Nat × String × Nat)) : Option (List (String × String)) × Nat :=
  if headers.isEmpty then (some [], 0)
  else
    match call (buildClassifyPrompt headers) with
    | none => (none, 1)
    | some resp =>
      if resp = "" then (none, 1)
      else
        match jsonLoads (stripFencesClassify resp) with
        | .error _ => (none, 1)
        | .ok (.obj kvs) => (some (classifyMapBack headers kvs), 1)
        | .ok (.arr xs) =>
          if (enumFrom 0 headers).any (fun q =>
              xs.any fun v => match v with | .str s => s = natToStr (q.1 + 1) | _ => false) then
            (none, 1)
          else (some [], 1)
        | .ok (.str s) =>
          if (enumFrom 0 headers).any (fun q => pyContains s (natToStr (q.1 + 1))) then (none, 1)
          else (some [], 1)
        | .ok _ => (none, 1)

/-! ## Quality assessor (batch_pdf_processor_gui.py lines 1444-1477) -/

def criticalSections : List String :=
  ["Abstract", "Introduction", "Methods", "Results & Discussion", "Conclusion"]

def missingCritical (m : List (String × String)) : List String :=
  criticalSections.filter fun s => !alContains m s

def shortSections (m : List (String × String)) : List String :=
  m.filterMap fun p => if (pyStrip p.2).length < 100 then some p.1 else none

/-- Whether the quality check sets `need_llm`.  The `len(sections) > 8`
branch (lines 1475-1477) only logs and never sets it. -/
def needLLM (m : List (String × String)) : Bool :=
  if m.isEmpty then true
  else
    (!(missingCritical m).isEmpty) || (!(shortSections m).isEmpty) || decide (m.length < 2)

/-! ## Merge policy (lines 1644-1657) -/

/-- One model-derived entry: insert when absent; replace when the present
heuristic content strips to < 100 characters and the model content strips
to > 100; otherwise keep. -/
def mergeStep (acc : List (String × String)) (p : String × String) : List (String × String) :=
  match alGet acc p.1 with
  | none => alSet acc p.1 p.2
  | some cur =>
    if (pyStrip cur).length < 100 ∧ (pyStrip p.2).length > 100 then alSet acc p.1 p.2
    else acc

def mergeSections (sections llm : List (String × String)) : List (String × String) :=
  llm.foldl mergeStep sections

/-! ## Folding classified headings into the map (lines 1486-1581) -/

def digitsToNat (ds : List Char) : Nat :=
  ds.foldl (fun a c => a * 10 + (c.toNat - 48)) 0

/-- `re.match(r'^(#+)\s+(\d+)\.', line)` (line 1526): hash count and the
leading number.  The dot here is the half-width one only. -/
def parseStartHeading (cs : List Char) : Option (Nat × Nat) :=
  match takeHashes cs with
  | (0, _) => none
  | (n + 1, r) =>
    match r with
    | [] => none
    | d :: _ =>
      if isPyWs d then
        match spanDigits (r.dropWhile isPyWs) with
        | ([], _) => none
        | (ds, r2) =>
          match r2 with
          | '.' :: _ => some (n + 1, digitsToNat ds)
          | _ => none
      else none

def extrasFromF : Nat → List Char → List (List Char) × List Char
  | 0, cs => ([], cs)
  | _ + 1, [] => ([], [])
  | fuel + 1, c :: cs =>
    if c = '.' then
      match spanDigits cs with
      | ([], _) => ([], c :: cs)
      | (ds, r) =>
        let (es, r2) := extrasFromF fuel r
        (ds :: es, r2)
    else ([], c :: cs)

/-- The maximal `(\.\d+)*` run. -/
def extrasFrom (cs : List Char) : List (List Char) × List Char := extrasFromF cs.length cs

/-- `re.match(r'^(#+)\s+(\d+)(?:\.(\d+))*\.', line)` (line 1537), with
Python's backtracking: the starred group first takes the whole chain; if no
final dot follows it gives back its last repetition (whose own dot then
satisfies the final `\.`).  Returns (hash count, number, sub-number). -/
def parseSiblingHeading (cs : List Char) : Option (Nat × Nat × Option Nat) :=
  match takeHashes cs with
  | (0, _) => none
  | (n + 1, r) =>
    match r with
    | [] => none
    | d :: _ =>
      if isPyWs d then
        match spanDigits (r.dropWhile isPyWs) with
        | ([], _) => none
        | (d0, r2) =>
          match r2 with
          | '.' :: _ =>
            let (extras, rest) := extrasFrom r2
            let subNum : Option Nat :=
              match rest with
              | '.' :: _ => (extras.getLast?).map digitsToNat
              | _ =>
                if extras.length ≥ 2 then (extras.get? (extras.length - 2)).map digitsToNat
                else none
            some (n + 1, digitsToNat d0, subNum)
          | _ => none
      else none

/-- Lines 1532-1558: scan after the last classified heading for a sibling
(`same hash depth, undotted greater number`), a higher-level numbered
heading, or an unnumbered `# ` heading. -/
def classifScanNumbered (total sh sn : Nat) : List String → Nat → Nat
  | [], _ => total
  | l :: rest, i =>
    let ls := pyStrip l
    match parseSiblingHeading ls.data with
    | some (h, n2, sub) =>
      if h = sh then
        if sub = none ∧ n2 > sn then i else classifScanNumbered total sh sn rest (i + 1)
      else if h < sh then i
      else classifScanNumbered total sh sn rest (i + 1)
    | none =>
      if pyStartsWith ls "# " ∧ parseStartHeading ls.data = none then i
      else classifScanNumbered total sh sn rest (i + 1)

/-- Lines 1560-1565: fallback scan for the next top-level `# ` heading. -/
def classifScanSimple (total : Nat) : List String → Nat → Nat
  | [], _ => total
  | l :: rest, i =>
    if pyStartsWith (pyStrip l) "# " ∧ ¬ pyStartsWith (pyStrip l) "## " then i
    else classifScanSimple total rest (i + 1)

def classifSectionEnd (lines : List String) (startIdx lastIdx : Nat) : Nat :=
  match parseStartHeading (pyStrip (lines.getD startIdx "")).data with
  | some (sh, sn) => classifScanNumbered lines.length sh sn (lines.drop (lastIdx + 1)) (lastIdx + 1)
  | none => classifScanSimple lines.length (lines.drop (lastIdx + 1)) (lastIdx + 1)

def firstLineIdxGo : List String → Nat → String → Option Nat
  | [], _, _ => none
  | l :: rest, i, h => if pyStrip l = h then some i else firstLineIdxGo rest (i + 1) h

/-- Lines 1507-1512: first document line whose stripped text equals each
header, then (lines 1514-1515) a stable sort by position. -/
def headerPositions (lines : List String) (headers : List String) : List (Nat × String) :=
  headers.filterMap fun h => (firstLineIdxGo lines 0 h).map fun i => (i, h)

def insertPos (p : Nat × String) : List (Nat × String) → List (Nat × String)
  | [] => [p]
  | q :: rest => if q.1 ≤ p.1 then q :: insertPos p rest else p :: q :: rest

def sortPositions (ps : List (Nat × String)) : List (Nat × String) :=
  ps.foldl (fun acc p => insertPos p acc) []

/-- Lines 1489-1494: group classified headers by section type, preserving
first-appearance order of the types. -/
def groupByType (classification : List (String × String)) : List (String × List String) :=
  classification.foldl
    (fun acc p =>
      match alGet acc p.2 with
      | some hs => alSet acc p.2 (hs ++ [p.1])
      | none => alSet acc p.2 [p.1])
    []

/-- Lines 1497-1581 for one section type: resolve the block from the first
to the last matching heading, then prepend to an existing entry or insert
a fresh one. -/
def applyClassifiedType (lines : List String) (sections : List (String × String))
    (ty : String) (headers : List String) : List (String × String) :=
  let already := alContains sections ty
  let positions := sortPositions (headerPositions lines headers)
  let combined : List String :=
    match positions, positions.getLast? with
    | p :: _, some q =>
      [joinNl ((lines.drop p.1).take (classifSectionEnd lines p.1 q.1 - p.1))]
    | _, _ => []
  match combined with
  | [] => sections
  | _ =>
    let newContent := joinSep "\n\n" combined
    if already then alSet sections ty (newContent ++ "\n\n" ++ (alGet sections ty).getD "")
    else alSet sections ty newContent

def applyClassification (lines : List String) (sections : List (String × String))
    (classification : List (String × String)) : List (String × String) :=
  (groupByType classification).foldl (fun acc p => applyClassifiedType lines acc p.1 p.2) sections

/-! ## The whole pipeline (`extract_markdown_sections` core,
batch_pdf_processor_gui.py lines 1414-1675) -/

/-- Lines 1418-1424: documents beyond 100000 characters are truncated. -/
def truncateDoc (s : String) : String :=
  if s.length > 100000 then String.mk (s.data.take 100000) else s

/-- A parsed model response as a string-to-string map.  An object with a
non-string value makes the Python merge loop raise `AttributeError`
mid-way (caught at line 1666); such responses are outside this model and
leave the heuristic map unchanged here. -/
def jvalStrEntries : List (String × JVal) → Option (List (String × String))
  | [] => some []
  | (k, .str v) :: rest => (jvalStrEntries rest).map fun r => (k, v) :: r
  | (_, _) :: _ => none

/-- The section-extraction pipeline: heuristic pass, quality check,
classification bridge, full/partial extraction bridge, merge.  The two
model calls and the two prompt-template files are parameters (`none`
for a failed call or a missing template file). -/
def extract_sections_with_llm (markdownContent : String)
    (classifyCall : String → Option String)
    (extractCall : String → Nat → Option String)
    (fullTemplate partialTemplate : Option String) : List (String × String) :=
  let content := truncateDoc markdownContent
  let lines := splitLines content
  let fb := extract_sections_fallback content
  let sections0 := fb.1
  let unrec := fb.2
  let need0 := needLLM sections0
  -- classification bridge (lines 1480-1593); `if classification:` is
  -- Python truthiness, so an empty classification map changes nothing
  let afterClassify : List (String × String) × Bool :=
    if ¬ unrec.isEmpty ∧ ¬ sections0.isEmpty then
      match (classify_section_titles classifyCall unrec).1 with
      | some classification =>
        if ¬ classification.isEmpty then
          let s1 := applyClassification lines sections0 classification
          (s1, if (missingCritical s1).isEmpty then false else need0)
        else (sections0, need0)
      | none => (sections0, need0)
    else (sections0, need0)
  let sections1 := afterClassify.1
  let need1 := afterClassify.2
  -- full/partial extraction bridge (lines 1596-1668)
  if need1 then
    if sections1.isEmpty then
      match fullTemplate with
      | none => sections1
      | some tpl =>
        match extract_sections_model tpl content none extractCall with
        | some (.obj kvs) =>
          if ¬ kvs.isEmpty then
            match jvalStrEntries kvs with
            | some m => m
            | none => sections1
          else sections1
        | some _ => sections1
        | none => sections1
    else
      let missing0 := criticalSections.filter fun s => !alContains sections1 s
      -- lines 1616-1618: also request sections that strip to < 100 chars
      let missing := sections1.foldl
        (fun ms p => if (pyStrip p.2).length < 100 ∧ ¬ ms.contains p.1 then ms ++ [p.1] else ms)
        missing0
      if missing.isEmpty then sections1
      else
        match partialTemplate with
        | none => sections1
        | some tpl =>
          match extract_sections_model tpl content (some missing) extractCall with
          | some (.obj kvs) =>
            if ¬ kvs.isEmpty then
              match jvalStrEntries kvs with
              | some m => mergeSections sections1 m
              | none => sections1
            else sections1
          | some _ => sections1
          | none => sections1
  else sections1

/-! ## Specification-side definitions for the claims -/

/-- Number of internal separators of the maximal `N(.N)*` chain at the
head of the input, together with the rest; written run-by-run, following
the specification's description of a numbering prefix, rather than
character-by-character like `scanChain`. -/
def specRunsF : Nat → List Char → Nat × List Char
  | 0, cs => (0, cs)
  | fuel + 1, cs =>
    match spanDigits cs with
    | ([], _) => (0, cs)
    | (_ :: _, rest) =>
      match rest with
      | [] => (0, rest)
      | s :: r2 =>
        let cont : Bool := isDotSep s && (match r2 with | e :: _ => e.isDigit | [] => false)
        if cont then
          let (k, rr) := specRunsF fuel r2
          (k + 1, rr)
        else (0, rest)

def specRuns (cs : List Char) : Nat × List Char := specRunsF cs.length cs

/-- Claim C3's numbering clause at one position: a prefix of the form
`N(.N)*` followed by a separator dot and then whitespace or a letter gives
level = internal separators + 1. -/
def specNumberingLevelHere (cs : List Char) : Option Nat :=
  match cs with
  | [] => none
  | c :: rest =>
    if c.isDigit then
      match specRuns (c :: rest) with
      | (k, s :: t :: _) =>
        if isDotSep s ∧ (isPyWs t ∨ isAsciiAlpha t) then some (k + 1) else none
      | _ => none
    else none

def specFindNumberingLevel : List Char → Option Nat
  | [] => none
  | c :: cs =>
    match specNumberingLevelHere (c :: cs) with
    | some k => some k
    | none => specFindNumberingLevel cs

/-- Claim C3's heading level: the numbering clause if a numbering prefix
occurs anywhere in the line (leftmost), else the heading-marker length
(`markerLevel` is exactly the claim's marker clause), else 0. -/
def specHeadingLevel (line : String) : Nat :=
  match specFindNumberingLevel line.data with
  | some k => k
  | none => markerLevel line.data

/-- Claim C5's escalation condition: empty map, a missing critical
section, a present section stripping to < 100 characters, or fewer than
two sections. -/
def specEscalationRequired (m : List (String × String)) : Prop :=
  m = [] ∨ (∃ c ∈ criticalSections, alGet m c = none) ∨
    (∃ p ∈ m, (pyStrip p.2).length < 100) ∨ m.length < 2

/-- Claim C6's description of the unrecognized-heading list: exactly the
level-1 `#`-marked headings matching no canonical-section pattern and no
exclusion pattern, as (line index, stripped text, level). -/
def specUnrecognized (lines : List String) : List (Nat × String × Nat) :=
  (enumFrom 0 lines).filterMap fun q =>
    let ls := pyStrip q.2
    if isHashHeading ls ∧ getHeadingLevel ls = 1 ∧
        sectionPatternTable.all (fun np => !anyMatchCI np.2 ls) ∧ ¬ isExcludeSection ls
    then some (q.1, ls, 1)
    else none

/-- Claim C9's recovery ladder, written as the ordered chain the claim
enumerates: preprocess (fence stripping, backslash escaping), parse, heal
and re-parse on an unterminated string, lenient literal parse, and `none`
when every rung fails. -/
def specRecoveryLadder (raw : String) : Option JVal :=
  let payload := fixBackslashes (stripFencesExtract raw)
  match jsonLoads payload with
  | .ok v => some v
  | .error .unterminatedString =>
    match jsonLoads (healTruncated payload), literalEval payload with
    | .ok v, _ => some v
    | .error _, some v => some v
    | .error _, none => none
  | .error .other =>
    match literalEval payload with
    | some v => some v
    | none => none

/-! ## Claim statements that need concrete evaluation -/

def fallbackMap (doc : String) : List (String × String) := (extract_sections_fallback doc).1

def firstIdxMatching (pats : List Pat) : List String → Nat → Option Nat
  | [], _ => none
  | l :: rest, i =>
    if anyMatchCI pats (pyStrip l) then some i else firstIdxMatching pats rest (i + 1)

/-- Whether a content block is "Results content followed by Discussion
content, in that order": its first Results-shaped heading line precedes
its first Discussion-shaped heading line. -/
def contentOrderedB (c : String) : Bool :=
  match firstIdxMatching resultsBarePatterns (splitLines c) 0,
      firstIdxMatching discussionBarePatterns (splitLines c) 0 with
  | some ri, some di => decide (ri < di)
  | _, _ => false

abbrev hasLineMatching (pats : List Pat) (lines : List String) : Prop :=
  ∃ l ∈ lines, anyMatchCI pats (pyStrip l) = true

/-- Claim C1's conclusion about a final map: only the combined key, no
standalone keys, content ordered Results-then-Discussion. -/
def c1FinalMapOk (m : List (String × String)) : Bool :=
  (alGet m "Results").isNone && (alGet m "Discussion").isNone &&
  (match alGet m "Results & Discussion" with
   | some c => contentOrderedB c
   | none => false)

/-- Claim C1 as stated, for one document and one environment (model calls
and templates). -/
abbrev claimC1Statement (doc : String) (classifyCall : String → Option String)
    (extractCall : String → Nat → Option String) (ft pt : Option String) : Prop :=
  hasLineMatching resultsBarePatterns (splitLines (truncateDoc doc)) →
  hasLineMatching discussionBarePatterns (splitLines (truncateDoc doc)) →
  c1FinalMapOk (extract_sections_with_llm doc classifyCall extractCall ft pt) = true

/-- Claim C2's per-entry merge rule as stated (replace already when the
model content strips to ≥ 100 characters). -/
def mergeRuleAsStatedB (s llm : List (String × String)) (p : String × String) : Bool :=
  match alGet s p.1 with
  | none => alGet (mergeSections s llm) p.1 == some p.2
  | some hc =>
    if (pyStrip hc).length < 100 ∧ 100 ≤ (pyStrip p.2).length then
      alGet (mergeSections s llm) p.1 == some p.2
    else alGet (mergeSections s llm) p.1 == some hc

/-- The merge rule as the code implements it (replacement needs model
content strictly longer than 100 characters after stripping). -/
def mergeRuleAmendedB (s llm : List (String × String)) (p : String × String) : Bool :=
  match alGet s p.1 with
  | none => alGet (mergeSections s llm) p.1 == some p.2
  | some hc =>
    if (pyStrip hc).length < 100 ∧ 100 < (pyStrip p.2).length then
      alGet (mergeSections s llm) p.1 == some p.2
    else alGet (mergeSections s llm) p.1 == some hc

abbrev claimC2Statement (s llm : List (String × String)) : Prop :=
  (llm.map Prod.fst).Nodup → ∀ p ∈ llm, mergeRuleAsStatedB s llm p = true

/-- The patterns of one canonical section. -/
def patternsFor (name : String) : List Pat := (alGet sectionPatternTable name).getD []

def firstLineOf (c : String) : String := (splitLines c).headD ""

/-- Claim C7 as stated, for one document and one environment: every entry
of the final map begins with a document line that was matched as that
section's heading. -/
abbrev claimC7Statement (doc : String) (classifyCall : String → Option String)
    (extractCall : String → Nat → Option String) (ft pt : Option String) : Prop :=
  ∀ p ∈ extract_sections_with_llm doc classifyCall extractCall ft pt,
    ∃ l ∈ splitLines (truncateDoc doc),
      anyMatchCI (patternsFor p.1) (pyStrip l) = true ∧ firstLineOf p.2 = l

/-- Claim C8 as stated: merging keeps every heuristic key, and an entry
whose raw content length is at least 100 characters is never changed. -/
abbrev claimC8Statement (s llm : List (String × String)) : Prop :=
  ∀ p ∈ s, (alGet (mergeSections s llm) p.1).isSome = true ∧
    (100 ≤ p.2.length → alGet s p.1 = some p.2 →
      alGet (mergeSections s llm) p.1 = some p.2)

/-! Concrete inputs for counterexamples and witnesses. -/

def c1CexDoc : String := "# Discussion\nD body.\n# Results\nR body."

def c1WitnessDoc : String := "# Results\nR body.\n# Discussion\nD body."

def c2Hundred : String := String.mk (List.replicate 100 'a')

def c2Long : String := String.mk (List.replicate 101 'b')

def c4WitnessLines : List String :=
  ["# Conclusion", "The paper ends here.", "# Acknowledgements", "We thank everyone."]

def c7CexDoc : String := "# 1. Introduction\nIntro body."

def c7CexResponse : String := "\x7b\"Abstract\": \"no heading content\"\x7d"

def c7CexTemplate : String :=
  "Extract \x7bTARGET_SECTIONS_LIST\x7d from: \x7bMARKDOWN_CONTENT\x7d"

def c7WitnessDoc : String := "# Abstract\nShort body."

def c8Padded : String := String.mk (List.replicate 95 ' ' ++ ['a', 'b', 'c', 'd', 'e'])

def c8Long : String := String.mk (List.replicate 101 'c')

def c8Keep : String := String.mk (List.replicate 100 'd')

/-! ## Association-list lemmas -/

theorem alGet_alSet_same {β : Type} (m : List (String × β)) (k : String) (v : β) :
    alGet (alSet m k v) k = some v := by
  induction m with
  | nil => simp [alSet, alGet]
  | cons e rest ih =>
    obtain ⟨k0, v0⟩ := e
    by_cases h : k0 = k
    · subst h; simp [alSet, alGet]
    · simp [alSet, alGet, h, ih]

theorem alGet_alSet_ne {β : Type} (m : List (String × β)) (k j : String) (v : β)
    (h : k ≠ j) : alGet (alSet m k v) j = alGet m j := by
  induction m with
  | nil => simp [alSet, alGet, h]
  | cons e rest ih =>
    obtain ⟨k0, v0⟩ := e
    by_cases h0 : k0 = k
    · subst h0
      simp [alSet, alGet, h]
    · by_cases h1 : k0 = j
      · subst h1; simp [alSet, alGet, h0]
      · simp [alSet, alGet, h0, h1, ih]

theorem mem_alSet {β : Type} {m : List (String × β)} {k : String} {v : β}
    {e : String × β} (h : e ∈ alSet m k v) : e = (k, v) ∨ e ∈ m := by
  induction m with
  | nil => simpa [alSet] using h
  | cons e0 rest ih =>
    obtain ⟨k0, v0⟩ := e0
    by_cases h0 : k0 = k
    · subst h0
      simp only [alSet, if_pos rfl] at h
      rcases List.mem_cons.mp h with h | h
      · left; simpa using h
      · right; exact List.mem_cons_of_mem _ h
    · simp only [alSet, if_neg h0] at h
      rcases List.mem_cons.mp h with h | h
      · right; simp [h]
      · rcases ih h with h1 | h1
        · left; exact h1
        · right; exact List.mem_cons_of_mem _ h1

theorem alGet_isSome_alSet {β : Type} (m : List (String × β)) (k j : String) (v : β)
    (h : (alGet m j).isSome = true) : (alGet (alSet m k v) j).isSome = true := by
  by_cases hk : k = j
  · subst hk; simp [alGet_alSet_same]
  · rw [alGet_alSet_ne m k j v hk]; exact h

/-! ## Strip-idempotence lemmas -/

theorem stripRight_cons (c : Char) (l : List Char) :
    stripRight (c :: l) = if (stripRight l).isEmpty ∧ isPyWs c then [] else c :: stripRight l :=
  rfl

theorem stripRight_head? (cs : List Char) :
    stripRight cs = [] ∨ (stripRight cs).head? = cs.head? := by
  cases cs with
  | nil => left; rfl
  | cons c rest =>
    rw [stripRight_cons]
    by_cases h : (stripRight rest).isEmpty ∧ isPyWs c
    · left; rw [if_pos h]
    · right; rw [if_neg h]; rfl

theorem stripRight_idem (cs : List Char) : stripRight (stripRight cs) = stripRight cs := by
  induction cs with
  | nil => rfl
  | cons c rest ih =>
    rw [stripRight_cons]
    by_cases h : (stripRight rest).isEmpty ∧ isPyWs c
    · rw [if_pos h]; rfl
    · rw [if_neg h, stripRight_cons, ih, if_neg h]

theorem head?_dropWhile_not (p : Char → Bool) (cs : List Char) :
    ∀ c, (cs.dropWhile p).head? = some c → p c = false := by
  induction cs with
  | nil => intro c h; simp [List.dropWhile] at h
  | cons a rest ih =>
    intro c h
    by_cases ha : p a
    · rw [List.dropWhile_cons_of_pos ha] at h; exact ih c h
    · rw [List.dropWhile_cons_of_neg ha] at h
      simp at h
      subst h
      simpa using ha

theorem dropWhile_eq_self_of_head (p : Char → Bool) (l : List Char)
    (h : ∀ c, l.head? = some c → p c = false) : l.dropWhile p = l := by
  cases l with
  | nil => rfl
  | cons c rest =>
    rw [List.dropWhile_cons_of_neg]
    simp [h c rfl]

theorem pyStripList_idem (cs : List Char) : pyStripList (pyStripList cs) = pyStripList cs := by
  unfold pyStripList
  have hdrop : (stripRight (cs.dropWhile isPyWs)).dropWhile isPyWs
      = stripRight (cs.dropWhile isPyWs) := by
    apply dropWhile_eq_self_of_head
    intro c hc
    rcases stripRight_head? (cs.dropWhile isPyWs) with h | h
    · rw [h] at hc; simp at hc
    · rw [h] at hc
      exact head?_dropWhile_not isPyWs cs c hc
  rw [hdrop, stripRight_idem]

theorem pyStrip_idem (s : String) : pyStrip (pyStrip s) = pyStrip s := by
  unfold pyStrip
  rw [show (String.mk (pyStripList s.data)).data = pyStripList s.data from rfl,
    pyStripList_idem]

theorem isExcludeSection_pyStrip (s : String) :
    isExcludeSection (pyStrip s) = isExcludeSection s := by
  unfold isExcludeSection
  rw [pyStrip_idem]

theorem getSectionNameForHeader_pyStrip (s : String) :
    getSectionNameForHeader (pyStrip s) = getSectionNameForHeader s := by
  unfold getSectionNameForHeader
  rw [pyStrip_idem]

/-! ## Claim C10 -/

/-- C10: on an empty unrecognized-heading list, `classify_section_titles`
returns the empty map (not a failure) and performs no model call — the
result is `(some [], 0)` for every call primitive, where the second
component counts `call_llm` invocations. -/
theorem c10_classify_empty (call : String → Option String) :
    classify_section_titles call [] = (some [], 0) := rfl

/-! ## Claim C9 -/

/-- C9: the response parsing of `extract_sections` equals the ordered
recovery ladder the specification describes: strip code fences, escape
stray backslashes, parse; on an unterminated-string failure heal (append
closing quote and brace) and re-parse; then a lenient literal parse; and
`none` (no exception) when everything fails. -/
theorem c9_recovery_ladder (r : String) : parseSectionsResponse r = specRecoveryLadder r := by
  simp only [parseSectionsResponse, specRecoveryLadder]
  cases h : jsonLoads (fixBackslashes (stripFencesExtract r)) with
  | ok v => rfl
  | error e =>
    cases e with
    | unterminatedString =>
      cases h2 : jsonLoads (healTruncated (fixBackslashes (stripFencesExtract r))) with
      | ok v => rfl
      | error e2 =>
        cases h3 : literalEval (fixBackslashes (stripFencesExtract r)) with
        | none => rfl
        | some v => rfl
    | other =>
      cases h3 : literalEval (fixBackslashes (stripFencesExtract r)) with
      | none => rfl
      | some v => rfl

/-! ## Claim C5 -/

/-- C5: the quality gate escalates to the model bridges exactly when the
heuristic map is empty, a critical canonical name is absent, a present
section strips to fewer than 100 characters, or fewer than two sections
were found; a map with more than eight sections alone never forces
escalation (the `> 8` branch only logs, and the right-hand side does not
mention it). -/
theorem missingCritical_ne_nil (m : List (String × String)) :
    missingCritical m ≠ [] ↔ ∃ c ∈ criticalSections, alGet m c = none := by
  unfold missingCritical
  constructor
  · intro h
    obtain ⟨c, hc⟩ := List.exists_mem_of_ne_nil _ h
    obtain ⟨hmem, hb⟩ := List.mem_filter.mp hc
    refine ⟨c, hmem, ?_⟩
    have : (alGet m c).isSome = false := by simpa [alContains] using hb
    exact Option.not_isSome_iff_eq_none.mp (by simp [this])
  · rintro ⟨c, hc, hn⟩ h0
    have : c ∈ criticalSections.filter (fun s => !alContains m s) :=
      List.mem_filter.mpr ⟨hc, by simp [alContains, hn]⟩
    rw [h0] at this
    simp at this

theorem shortSections_ne_nil (m : List (String × String)) :
    shortSections m ≠ [] ↔ ∃ p ∈ m, (pyStrip p.2).length < 100 := by
  unfold shortSections
  constructor
  · intro h
    obtain ⟨c, hc⟩ := List.exists_mem_of_ne_nil _ h
    obtain ⟨p, hp, he⟩ := List.mem_filterMap.mp hc
    by_cases hlen : (pyStrip p.2).length < 100
    · exact ⟨p, hp, hlen⟩
    · simp [hlen] at he
  · rintro ⟨p, hp, hlen⟩ h0
    have : p.1 ∈ m.filterMap
        (fun p => if (pyStrip p.2).length < 100 then some p.1 else none) :=
      List.mem_filterMap.mpr ⟨p, hp, by simp [hlen]⟩
    rw [h0] at this
    simp at this

/-- C5: the quality gate escalates to the model bridges exactly when the
heuristic map is empty, a critical canonical name is absent, a present
section strips to fewer than 100 characters, or fewer than two sections
were found; a map with more than eight sections alone never forces
escalation (the `> 8` branch only logs, and the right-hand side does not
mention it). -/
theorem c5_escalation_iff (m : List (String × String)) :
    needLLM m = true ↔ specEscalationRequired m := by
  by_cases he : m.isEmpty = true
  · have hm : m = [] := by
      cases m with
      | nil => rfl
      | cons a l => simp [List.isEmpty] at he
    subst hm
    simp [needLLM, specEscalationRequired]
  · have hne : m ≠ [] := by
      intro h0; subst h0; exact he rfl
    unfold needLLM specEscalationRequired
    rw [if_neg he]
    simp only [Bool.or_eq_true, Bool.not_eq_true', decide_eq_true_eq]
    constructor
    · rintro ((h | h) | h)
      · refine Or.inr (Or.inl ((missingCritical_ne_nil m).mp ?_))
        intro h0; rw [h0] at h; simp at h
      · refine Or.inr (Or.inr (Or.inl ((shortSections_ne_nil m).mp ?_)))
        intro h0; rw [h0] at h; simp at h
      · exact Or.inr (Or.inr (Or.inr h))
    · rintro (h | h | h | h)
      · exact absurd h hne
      · refine Or.inl (Or.inl ?_)
        have := (missingCritical_ne_nil m).mpr h
        cases h0 : missingCritical m with
        | nil => exact absurd h0 this
        | cons a l => rfl
      · refine Or.inl (Or.inr ?_)
        have := (shortSections_ne_nil m).mpr h
        cases h0 : shortSections m with
        | nil => exact absurd h0 this
        | cons a l => rfl
      · exact Or.inr h

/-! ## Merge-policy lemmas, claims C2 and C8 -/

theorem alGet_mergeStep_ne (acc : List (String × String)) (p : String × String)
    (k : String) (h : p.1 ≠ k) : alGet (mergeStep acc p) k = alGet acc k := by
  unfold mergeStep
  cases h0 : alGet acc p.1 with
  | none => exact alGet_alSet_ne acc p.1 k p.2 h
  | some cur =>
    dsimp only
    by_cases hc : (pyStrip cur).length < 100 ∧ (pyStrip p.2).length > 100
    · rw [if_pos hc]; exact alGet_alSet_ne acc p.1 k p.2 h
    · rw [if_neg hc]

theorem alGet_mergeStep_isSome (acc : List (String × String)) (p : String × String)
    (k : String) (h : (alGet acc k).isSome = true) :
    (alGet (mergeStep acc p) k).isSome = true := by
  unfold mergeStep
  cases h0 : alGet acc p.1 with
  | none => exact alGet_isSome_alSet acc p.1 k p.2 h
  | some cur =>
    dsimp only
    by_cases hc : (pyStrip cur).length < 100 ∧ (pyStrip p.2).length > 100
    · rw [if_pos hc]; exact alGet_isSome_alSet acc p.1 k p.2 h
    · rw [if_neg hc]; exact h

theorem alGet_mergeSections_isSome (llm : List (String × String)) :
    ∀ (s : List (String × String)) (k : String), (alGet s k).isSome = true →
      (alGet (mergeSections s llm) k).isSome = true := by
  induction llm with
  | nil => intro s k h; exact h
  | cons q rest ih =>
    intro s k h
    exact ih (mergeStep s q) k (alGet_mergeStep_isSome s q k h)

theorem mergeStep_long_keep (acc : List (String × String)) (p : String × String)
    (k : String) (v : String) (hk : alGet acc k = some v)
    (hv : 100 ≤ (pyStrip v).length) : alGet (mergeStep acc p) k = some v := by
  by_cases hpk : p.1 = k
  · subst hpk
    unfold mergeStep
    rw [hk]
    dsimp only
    rw [if_neg]
    · exact hk
    · intro hc
      omega
  · rw [alGet_mergeStep_ne acc p k hpk]; exact hk

theorem mergeSections_long_keep (llm : List (String × String)) :
    ∀ (s : List (String × String)) (k : String) (v : String),
      alGet s k = some v → 100 ≤ (pyStrip v).length →
      alGet (mergeSections s llm) k = some v := by
  induction llm with
  | nil => intro s k v hk _; exact hk
  | cons q rest ih =>
    intro s k v hk hv
    exact ih (mergeStep s q) k v (mergeStep_long_keep s q k v hk hv) hv

theorem alGet_mergeSections_no_key (llm : List (String × String)) :
    ∀ (s : List (String × String)) (k : String), (∀ p ∈ llm, p.1 ≠ k) →
      alGet (mergeSections s llm) k = alGet s k := by
  induction llm with
  | nil => intro s k _; rfl
  | cons q rest ih =>
    intro s k h
    have h1 : q.1 ≠ k := h q (List.mem_cons_self q rest)
    have h2 : ∀ p ∈ rest, p.1 ≠ k := fun p hp => h p (List.mem_cons_of_mem q hp)
    calc alGet (mergeSections s (q :: rest)) k
        = alGet (mergeSections (mergeStep s q) rest) k := rfl
      _ = alGet (mergeStep s q) k := ih (mergeStep s q) k h2
      _ = alGet s k := alGet_mergeStep_ne s q k h1

/-- C2 counterexample: the claim's replacement condition uses a
model-content bound of "at least 100 stripped characters", but the code
requires strictly more than 100 (`> 100`); with heuristic content `"x"`
and model content of exactly 100 characters, the claim demands
replacement while the code keeps `"x"`. -/
theorem c2_counterexample :
    ¬ claimC2Statement [("Abstract", "x")] [("Abstract", c2Hundred)] := by
  decide

/-- C2, amended: as stated except that the model content must strip to
strictly more than 100 characters for a replacement; inserting absent
names and keeping the heuristic content in every other case are as the
claim says. -/
theorem c2_merge_rule_amended (s llm : List (String × String))
    (hnd : (llm.map Prod.fst).Nodup) (p : String × String) (hp : p ∈ llm) :
    mergeRuleAmendedB s llm p = true := by
  induction llm generalizing s with
  | nil => cases hp
  | cons q rest ih =>
    rw [List.map_cons, List.nodup_cons] at hnd
    obtain ⟨hq, hnd'⟩ := hnd
    rcases List.mem_cons.mp hp with rfl | hp'
    · have hrest : ∀ r ∈ rest, r.1 ≠ p.1 := by
        intro r hr h0
        exact hq (h0 ▸ List.mem_map_of_mem Prod.fst hr)
      have e2 : mergeSections s (p :: rest) = mergeSections (mergeStep s p) rest := rfl
      have e3 : alGet (mergeSections (mergeStep s p) rest) p.1 = alGet (mergeStep s p) p.1 :=
        alGet_mergeSections_no_key rest (mergeStep s p) p.1 hrest
      unfold mergeRuleAmendedB
      cases h0 : alGet s p.1 with
      | none =>
        dsimp only
        rw [e2, e3]
        unfold mergeStep
        rw [h0]
        dsimp only
        rw [alGet_alSet_same]
        simp
      | some hc =>
        dsimp only
        by_cases hcond : (pyStrip hc).length < 100 ∧ 100 < (pyStrip p.2).length
        · rw [if_pos hcond, e2, e3]
          unfold mergeStep
          rw [h0]
          dsimp only
          rw [if_pos (by omega : (pyStrip hc).length < 100 ∧ (pyStrip p.2).length > 100),
            alGet_alSet_same]
          simp
        · rw [if_neg hcond, e2, e3]
          unfold mergeStep
          rw [h0]
          dsimp only
          rw [if_neg (by omega : ¬ ((pyStrip hc).length < 100 ∧ (pyStrip p.2).length > 100)),
            h0]
          simp
    · have hne : q.1 ≠ p.1 := by
        intro h0
        exact hq (h0 ▸ List.mem_map_of_mem Prod.fst hp')
      have e1 : alGet (mergeStep s q) p.1 = alGet s p.1 := alGet_mergeStep_ne s q p.1 hne
      have := ih (mergeStep s q) hnd' hp'
      unfold mergeRuleAmendedB at this ⊢
      rw [e1] at this
      exact this

/-- C2 amended, witness: a 5-character heuristic `Methods` entry is
replaced by a 101-character model entry. -/
theorem c2_merge_rule_amended_witness :
    mergeRuleAmendedB [("Methods", "short")] [("Methods", c2Long)] ("Methods", c2Long) = true :=
  c2_merge_rule_amended [("Methods", "short")] [("Methods", c2Long)] (by decide)
    ("Methods", c2Long) (by decide)

/-- C8 counterexample: with "length" read as the raw content length (the
claim does not say stripped), a heuristic entry of raw length 100 whose
stripped length is 5 is replaced by a 101-character model entry, so a
section that is "already ≥ 100 characters" is not kept. -/
theorem c8_counterexample :
    ¬ claimC8Statement [("Methods", c8Padded)] [("Methods", c8Long)] := by
  decide

/-- C8, amended: the merge never removes a key present in the heuristic
map, and an entry whose stripped content length is at least 100 characters
is returned unchanged (the threshold is on the stripped length, which is
what the code compares). -/
theorem c8_monotonic_amended (s llm : List (String × String)) (k : String) (v : String)
    (hk : alGet s k = some v) :
    (alGet (mergeSections s llm) k).isSome = true ∧
      (100 ≤ (pyStrip v).length → alGet (mergeSections s llm) k = some v) :=
  ⟨alGet_mergeSections_isSome llm s k (by simp [hk]),
   fun hv => mergeSections_long_keep llm s k v hk hv⟩

/-- C8 amended, witness: a 100-character (stripped) Conclusion survives a
longer model candidate unchanged. -/
theorem c8_monotonic_amended_witness :
    (alGet (mergeSections [("Conclusion", c8Keep)] [("Conclusion", c8Long)]) "Conclusion").isSome
        = true ∧
      (100 ≤ (pyStrip c8Keep).length →
        alGet (mergeSections [("Conclusion", c8Keep)] [("Conclusion", c8Long)]) "Conclusion"
          = some c8Keep) :=
  c8_monotonic_amended [("Conclusion", c8Keep)] [("Conclusion", c8Long)] "Conclusion" c8Keep
    (by decide)

/-! ## Claim C4: the boundary resolver stops at exclusion lines -/

theorem drop_eq_getD_cons {α : Type} (d : α) :
    ∀ (l : List α) (i : Nat), i < l.length → l.drop i = l.getD i d :: l.drop (i + 1) := by
  intro l
  induction l with
  | nil => intro i h; simp at h
  | cons a t ih =>
    intro i h
    cases i with
    | zero => simp
    | succ n =>
      simp only [List.drop_succ_cons, List.getD_cons_succ]
      exact ih n (by simpa using h)

theorem findEndFrom_hit (name : String) (lvl : Nat) (lines : List String) (j : Nat)
    (hj : j < lines.length)
    (hbrk : lineBreaks name lvl (lines.getD j "") = true) :
    ∀ (d i0 : Nat), i0 + d = j →
      (∀ i, i0 ≤ i → i < j → lineBreaks name lvl (lines.getD i "") = false) →
      findEndFrom lines.length name lvl (lines.drop i0) i0 = j := by
  intro d
  induction d with
  | zero =>
    intro i0 h0 _
    have hij : i0 = j := by omega
    subst hij
    rw [drop_eq_getD_cons "" lines i0 (by omega)]
    simp only [findEndFrom]
    rw [hbrk]
    simp
  | succ n ih =>
    intro i0 h0 hmid
    have hi0 : i0 < lines.length := by omega
    rw [drop_eq_getD_cons "" lines i0 hi0]
    have hfalse : lineBreaks name lvl (lines.getD i0 "") = false :=
      hmid i0 (Nat.le_refl i0) (by omega)
    simp only [findEndFrom, hfalse, Bool.false_eq_true, if_false]
    exact ih (i0 + 1) (by omega) (fun i hi1 hi2 => hmid i (by omega) hi2)

/-- C4: when a line matching an exclusion pattern follows a section's
heading and no earlier line makes the scan stop, the boundary resolver
ends the section exactly at that exclusion line — whatever that line's
nesting level — and the extracted slice runs from the heading up to but
excluding it. -/
theorem c4_exclusion_boundary (lines : List String) (name : String) (lvl : Nat)
    (start j : Nat) (h1 : start < j) (h2 : j < lines.length)
    (hex : isExcludeSection (lines.getD j "") = true)
    (hmid : ∀ i, start < i → i < j → lineBreaks name lvl (lines.getD i "") = false) :
    findSectionEnd lines name lvl start = j ∧
      joinNl ((lines.drop start).take (findSectionEnd lines name lvl start - start)) =
        joinNl ((lines.drop start).take (j - start)) := by
  have hbrk : lineBreaks name lvl (lines.getD j "") = true := by
    have hb : isExcludeSection (pyStrip (lines.getD j "")) = true := by
      rw [isExcludeSection_pyStrip]; exact hex
    simp only [lineBreaks]
    rw [hb]
    simp
  have hend : findSectionEnd lines name lvl start = j := by
    unfold findSectionEnd
    exact findEndFrom_hit name lvl lines j h2 hbrk (j - (start + 1)) (start + 1) (by omega)
      (fun i hi1 hi2 => hmid i (by omega) hi2)
  exact ⟨hend, by rw [hend]⟩

/-- C4 witness: a Conclusion followed by an Acknowledgements heading ends
exactly there, keeping the two preceding lines. -/
theorem c4_exclusion_boundary_witness :
    findSectionEnd c4WitnessLines "Conclusion" 1 0 = 2 ∧
      joinNl ((c4WitnessLines.drop 0).take (findSectionEnd c4WitnessLines "Conclusion" 1 0 - 0)) =
        joinNl ((c4WitnessLines.drop 0).take (2 - 0)) :=
  c4_exclusion_boundary c4WitnessLines "Conclusion" 1 0 2 (by decide) (by decide) (by decide)
    (by
      intro i hi1 hi2
      have hone : i = 1 := by omega
      subst hone
      decide)

/-! ## Claim C3: the heading-level computation -/

theorem isDotSep_of_isDigit (c : Char) (h : c.isDigit = true) : isDotSep c = false := by
  by_cases h1 : c = '.'
  · subst h1; simp at h
  · by_cases h2 : c = '．'
    · subst h2; simp at h
    · simp [isDotSep, h1, h2]

theorem spanDigits_cons_digit (c : Char) (cs : List Char) (h : c.isDigit = true) :
    spanDigits (c :: cs) = (c :: (spanDigits cs).1, (spanDigits cs).2) := by
  simp [spanDigits, List.takeWhile_cons, List.dropWhile_cons, h]

theorem spanDigits_cons_not (c : Char) (cs : List Char) (h : c.isDigit = false) :
    spanDigits (c :: cs) = ([], c :: cs) := by
  simp [spanDigits, List.takeWhile_cons, List.dropWhile_cons, h]

theorem specRunsF_scanChain :
    ∀ (n fuel : Nat) (c : Char) (cs : List Char),
      (c :: cs).length ≤ n → (c :: cs).length ≤ fuel → c.isDigit = true →
      specRunsF fuel (c :: cs) =
        ((scanChain (c :: cs)).1.countP isDotSep, (scanChain (c :: cs)).2) := by
  intro n
  induction n with
  | zero => intro fuel c cs h; simp at h
  | succ n ih =>
    intro fuel c cs hn hf hc
    cases fuel with
    | zero => simp at hf
    | succ f =>
      cases cs with
      | nil =>
        simp only [specRunsF, spanDigits_cons_digit c [] hc]
        simp [scanChain, hc, spanDigits, List.countP_cons, isDotSep_of_isDigit c hc]
      | cons d ds =>
        by_cases hd : d.isDigit = true
        · have e1 : specRunsF (f + 1) (c :: d :: ds) = specRunsF (f + 1) (d :: ds) := by
            simp only [specRunsF, spanDigits_cons_digit c (d :: ds) hc,
              spanDigits_cons_digit d ds hd]
          rcases hgr : scanChain (d :: ds) with ⟨g, r⟩
          have e2 : scanChain (c :: d :: ds) = (c :: g, r) := by
            simp only [scanChain, hc, hd, if_true]
            rw [hgr]
          have ihd := ih (f + 1) d ds (by simp at hn ⊢; omega) (by simp at hf ⊢; omega) hd
          rw [e1, ihd, e2, hgr]
          simp [List.countP_cons, isDotSep_of_isDigit c hc]
        · by_cases hdot : isDotSep d = true
          · cases ds with
            | nil =>
              have e2 : scanChain (c :: d :: ([] : List Char)) = ([c], [d]) := by
                simp [scanChain, hc, hd, hdot]
              rw [e2]
              simp only [specRunsF, spanDigits_cons_digit c [d] hc,
                spanDigits_cons_not d [] (by simpa using hd)]
              simp [spanDigits, List.countP_cons, isDotSep_of_isDigit c hc]
            | cons e ds2 =>
              by_cases he : e.isDigit = true
              · rcases hgr : scanChain (e :: ds2) with ⟨g, r⟩
                have e2 : scanChain (c :: d :: e :: ds2) = (c :: d :: g, r) := by
                  simp only [scanChain, hc, hd, hdot, he, if_true]
                  simp [hd, hgr]
                have ihe := ih f e ds2 (by simp at hn ⊢; omega) (by simp at hf ⊢; omega) he
                have e1 : specRunsF (f + 1) (c :: d :: e :: ds2) =
                    ((specRunsF f (e :: ds2)).1 + 1, (specRunsF f (e :: ds2)).2) := by
                  simp only [specRunsF, spanDigits_cons_digit c (d :: e :: ds2) hc,
                    spanDigits_cons_not d (e :: ds2) (by simpa using hd)]
                  simp [spanDigits, hdot, he]
                rw [e1, ihe, e2, hgr]
                simp [List.countP_cons, isDotSep_of_isDigit c hc, hdot]
              · have e2 : scanChain (c :: d :: e :: ds2) = ([c], d :: e :: ds2) := by
                  simp [scanChain, hc, hd, hdot, he]
                rw [e2]
                simp only [specRunsF, spanDigits_cons_digit c (d :: e :: ds2) hc,
                  spanDigits_cons_not d (e :: ds2) (by simpa using hd)]
                simp [spanDigits, hdot, he, List.countP_cons, isDotSep_of_isDigit c hc]
          · have e2 : scanChain (c :: d :: ds) = ([c], d :: ds) := by
              cases ds with
              | nil => simp [scanChain, hc, hd, hdot]
              | cons e ds2 => simp [scanChain, hc, hd, hdot]
            rw [e2]
            simp only [specRunsF, spanDigits_cons_digit c (d :: ds) hc,
              spanDigits_cons_not d ds (by simpa using hd)]
            simp [spanDigits, hdot, List.countP_cons, isDotSep_of_isDigit c hc]

theorem here_bridge (cs : List Char) :
    specNumberingLevelHere cs = (numberingHere cs).map (fun g => g.countP isDotSep + 1) := by
  cases cs with
  | nil => rfl
  | cons c rest =>
    by_cases hc : c.isDigit = true
    · simp only [specNumberingLevelHere, numberingHere, hc, if_true]
      have hb := specRunsF_scanChain (c :: rest).length (c :: rest).length c rest
        (Nat.le_refl _) (Nat.le_refl _) hc
      rw [show specRuns (c :: rest) = specRunsF (c :: rest).length (c :: rest) from rfl, hb]
      rcases hsc : scanChain (c :: rest) with ⟨g, r⟩
      dsimp only
      cases r with
      | nil => rfl
      | cons s r2 =>
        cases r2 with
        | nil => rfl
        | cons t r3 =>
          dsimp only
          by_cases hcond : isDotSep s ∧ (isPyWs t ∨ isAsciiAlpha t)
          · rw [if_pos hcond, if_pos hcond]; rfl
          · rw [if_neg hcond, if_neg hcond]; rfl
    · simp [specNumberingLevelHere, numberingHere, hc]

theorem find_bridge (cs : List Char) :
    specFindNumberingLevel cs = (findNumbering cs).map (fun g => g.countP isDotSep + 1) := by
  induction cs with
  | nil => rfl
  | cons c rest ih =>
    simp only [specFindNumberingLevel, findNumbering]
    rw [here_bridge (c :: rest)]
    cases h : numberingHere (c :: rest) with
    | some g => rfl
    | none => simpa using ih

theorem count_dot_map (g : List Char) :
    (g.map fun c => if c = '．' then '.' else c).count '.' = g.countP isDotSep := by
  induction g with
  | nil => rfl
  | cons c rest ih =>
    simp only [List.map_cons, List.count_cons, List.countP_cons, ih]
    congr 1
    by_cases h1 : c = '．'
    · simp [h1, isDotSep]
    · by_cases h2 : c = '.'
      · simp [h1, h2, isDotSep]
      · simp [h1, h2, isDotSep]

/-- C3: the heading level is the internal-separator count of the leftmost
`N(.N)*` numbering prefix followed by a separator dot and whitespace or a
letter, plus one; without such a prefix, the length of a leading `#`
marker run followed by whitespace; otherwise 0. -/
theorem c3_heading_level (l : String) : getHeadingLevel l = specHeadingLevel l := by
  unfold getHeadingLevel specHeadingLevel
  rw [find_bridge l.data]
  cases h : findNumbering l.data with
  | none => rfl
  | some g =>
    dsimp only [Option.map]
    rw [count_dot_map g]

/-! ## Claim C6: the unrecognized-heading list -/

theorem firstMatchName_empty_iff (tbl : List (String × List Pat)) (s : String)
    (h : ∀ np ∈ tbl, np.1 ≠ "") :
    firstMatchName tbl s = "" ↔ tbl.all (fun np => !anyMatchCI np.2 s) = true := by
  induction tbl with
  | nil => simp [firstMatchName]
  | cons np rest ih =>
    have h1 : np.1 ≠ "" := h np (List.mem_cons_self np rest)
    have h2 := ih fun q hq => h q (List.mem_cons_of_mem _ hq)
    simp only [firstMatchName, List.all_cons]
    by_cases hm : anyMatchCI np.2 s = true
    · simp [hm, h1]
    · simp only [Bool.not_eq_true] at hm
      simp [hm, h2]

theorem sectionPatternTable_names (np : String × List Pat)
    (h : np ∈ sectionPatternTable) : np.1 ≠ "" := by
  simp only [sectionPatternTable, List.mem_cons, List.not_mem_nil, or_false] at h
  rcases h with h | h | h | h | h
  all_goals subst h
  all_goals decide

theorem getSectionName_empty_iff (l : String) :
    getSectionNameForHeader (pyStrip l) = "" ↔
      sectionPatternTable.all (fun np => !anyMatchCI np.2 (pyStrip l)) = true := by
  unfold getSectionNameForHeader
  rw [pyStrip_idem]
  exact firstMatchName_empty_iff sectionPatternTable (pyStrip l) sectionPatternTable_names

theorem collectUnrec_eq (lines : List String) : ∀ i0 : Nat,
    collectUnrec lines i0 = (enumFrom i0 lines).filterMap fun q =>
      let ls := pyStrip q.2
      if isHashHeading ls ∧ getHeadingLevel ls = 1 ∧
          sectionPatternTable.all (fun np => !anyMatchCI np.2 ls) ∧ ¬ isExcludeSection ls
      then some (q.1, ls, 1)
      else none := by
  induction lines with
  | nil => intro i0; rfl
  | cons l rest ih =>
    intro i0
    simp only [collectUnrec, enumFrom, List.filterMap_cons]
    rw [ih (i0 + 1)]
    by_cases hh : isHashHeading (pyStrip l) = true
    · by_cases hl : getHeadingLevel (pyStrip l) = 1
      · by_cases hc : getSectionNameForHeader (pyStrip l) = "" ∧ ¬ isExcludeSection (pyStrip l) = true
        · have hall := (getSectionName_empty_iff l).mp hc.1
          rw [if_pos hh, if_pos hl, if_pos hc,
            if_pos (⟨hh, hl, hall, hc.2⟩ :
              isHashHeading (pyStrip l) = true ∧ getHeadingLevel (pyStrip l) = 1 ∧
                sectionPatternTable.all (fun np => !anyMatchCI np.2 (pyStrip l)) = true ∧
                ¬ isExcludeSection (pyStrip l) = true)]
          rw [hl]
          rfl
        · have hc2 : ¬ (isHashHeading (pyStrip l) = true ∧ getHeadingLevel (pyStrip l) = 1 ∧
              sectionPatternTable.all (fun np => !anyMatchCI np.2 (pyStrip l)) = true ∧
              ¬ isExcludeSection (pyStrip l) = true) := by
            intro hx
            exact hc ⟨(getSectionName_empty_iff l).mpr hx.2.2.1, hx.2.2.2⟩
          rw [if_pos hh, if_pos hl, if_neg hc, if_neg hc2]
          rfl
      · have hc2 : ¬ (isHashHeading (pyStrip l) = true ∧ getHeadingLevel (pyStrip l) = 1 ∧
            sectionPatternTable.all (fun np => !anyMatchCI np.2 (pyStrip l)) = true ∧
            ¬ isExcludeSection (pyStrip l) = true) := fun hx => hl hx.2.1
        rw [if_pos hh, if_neg hl, if_neg hc2]
        rfl
    · have hc2 : ¬ (isHashHeading (pyStrip l) = true ∧ getHeadingLevel (pyStrip l) = 1 ∧
          sectionPatternTable.all (fun np => !anyMatchCI np.2 (pyStrip l)) = true ∧
          ¬ isExcludeSection (pyStrip l) = true) := fun hx => hh hx.1
      rw [if_neg hh, if_neg hc2]
      rfl

/-- C6: the unrecognized-heading list contains exactly the `#`-marked
headings of level 1 that match no canonical-section pattern and no
exclusion pattern, recorded as (line index, stripped text, level). -/
theorem c6_unrecognized_exact (content : String) :
    (extract_sections_fallback content).2 = specUnrecognized (splitLines content) := by
  show collectUnrec (splitLines content) 0 = specUnrecognized (splitLines content)
  rw [collectUnrec_eq (splitLines content) 0]
  rfl

/-! ## Claim C1: Results and Discussion in the heuristic pass -/

theorem alGet_fbStep_ne (lines : List String) (acc : List (String × String))
    (np : String × List Pat) (k : String) (h : np.1 ≠ k) :
    alGet (fbStep lines acc np) k = alGet acc k := by
  unfold fbStep
  cases extractOneSection lines np.1 np.2 with
  | none => rfl
  | some c => exact alGet_alSet_ne acc np.1 k c h

theorem alGet_fbStep_some (lines : List String) (acc : List (String × String))
    (np : String × List Pat) (c : String)
    (h : extractOneSection lines np.1 np.2 = some c) :
    alGet (fbStep lines acc np) np.1 = some c := by
  unfold fbStep
  rw [h]
  exact alGet_alSet_same acc np.1 c

theorem fallbackSectionsRaw_eq (lines : List String) :
    fallbackSectionsRaw lines =
      fbStep lines (fbStep lines (fbStep lines (fbStep lines (fbStep lines []
        ("Abstract", abstractPatterns)) ("Introduction", introductionPatterns))
        ("Methods", methodsPatterns)) ("Results & Discussion", rdPatterns))
        ("Conclusion", conclusionPatterns) := rfl

theorem alGet_raw_results (lines : List String) :
    alGet (fallbackSectionsRaw lines) "Results" = none := by
  rw [fallbackSectionsRaw_eq,
    alGet_fbStep_ne lines _ ("Conclusion", conclusionPatterns) "Results" (by decide),
    alGet_fbStep_ne lines _ ("Results & Discussion", rdPatterns) "Results" (by decide),
    alGet_fbStep_ne lines _ ("Methods", methodsPatterns) "Results" (by decide),
    alGet_fbStep_ne lines _ ("Introduction", introductionPatterns) "Results" (by decide),
    alGet_fbStep_ne lines _ ("Abstract", abstractPatterns) "Results" (by decide)]
  rfl

theorem alGet_raw_discussion (lines : List String) :
    alGet (fallbackSectionsRaw lines) "Discussion" = none := by
  rw [fallbackSectionsRaw_eq,
    alGet_fbStep_ne lines _ ("Conclusion", conclusionPatterns) "Discussion" (by decide),
    alGet_fbStep_ne lines _ ("Results & Discussion", rdPatterns) "Discussion" (by decide),
    alGet_fbStep_ne lines _ ("Methods", methodsPatterns) "Discussion" (by decide),
    alGet_fbStep_ne lines _ ("Introduction", introductionPatterns) "Discussion" (by decide),
    alGet_fbStep_ne lines _ ("Abstract", abstractPatterns) "Discussion" (by decide)]
  rfl

theorem mergeRD_noop (lines : List String) :
    mergeResultsDiscussion (fallbackSectionsRaw lines) = fallbackSectionsRaw lines := by
  unfold mergeResultsDiscussion
  rw [alGet_raw_results]

theorem fallbackMap_eq_raw (doc : String) :
    fallbackMap doc = fallbackSectionsRaw (splitLines doc) :=
  mergeRD_noop (splitLines doc)

theorem findSectionStart_of_mem (pats : List Pat) :
    ∀ (ls : List String) (j : Nat), (∃ l ∈ ls, anyMatchCI pats (pyStrip l) = true) →
      ∃ i st, findSectionStart pats ls j = some (i, st) := by
  intro ls
  induction ls with
  | nil => rintro j ⟨l, hl, _⟩; cases hl
  | cons a rest ih =>
    rintro j ⟨l, hl, hm⟩
    by_cases ha : anyMatchCI pats (pyStrip a) = true
    · exact ⟨j, pyStrip a, by simp [findSectionStart, ha]⟩
    · rcases List.mem_cons.mp hl with rfl | hl'
      · exact absurd hm ha
      · obtain ⟨i, st, h⟩ := ih (j + 1) ⟨l, hl', hm⟩
        exact ⟨i, st, by simp [findSectionStart, ha, h]⟩

theorem anyMatchCI_rd_of_results (s : String)
    (h : anyMatchCI resultsBarePatterns s = true) : anyMatchCI rdPatterns s = true := by
  simp only [anyMatchCI, rdPatterns, List.any_append, Bool.or_eq_true] at h ⊢
  tauto

/-- C1 counterexample: in a document whose Discussion heading precedes its
Results heading, the final map's single `Results & Discussion` entry is
one contiguous block starting at the Discussion heading, so its content is
not "Results content followed by Discussion content, in that order". -/
theorem c1_counterexample :
    ¬ claimC1Statement c1CexDoc (fun _ => none) (fun _ _ => none) none none := by
  decide

/-- C1, amended: when both a standalone Results heading and a standalone
Discussion heading match canonical patterns, the heuristic pass produces
no standalone `Results`/`Discussion` keys and a `Results & Discussion`
entry whose content is the single contiguous block of lines starting at
the first line matching the combined pattern list — so Results content
precedes Discussion content exactly when the Results heading occurs first
in the document. -/
theorem c1_results_discussion_amended (doc : String)
    (hr : hasLineMatching resultsBarePatterns (splitLines doc))
    (hd : hasLineMatching discussionBarePatterns (splitLines doc)) :
    alGet (fallbackMap doc) "Results" = none ∧
    alGet (fallbackMap doc) "Discussion" = none ∧
    ∃ i st, findSectionStart rdPatterns (splitLines doc) 0 = some (i, st) ∧
      alGet (fallbackMap doc) "Results & Discussion" =
        some (joinNl (((splitLines doc).drop i).take
          (findSectionEnd (splitLines doc) "Results & Discussion" (fallbackLevel st) i - i))) := by
  have hrd : ∃ l ∈ splitLines doc, anyMatchCI rdPatterns (pyStrip l) = true := by
    obtain ⟨l, hl, hm⟩ := hr
    exact ⟨l, hl, anyMatchCI_rd_of_results (pyStrip l) hm⟩
  obtain ⟨i, st, hstart⟩ := findSectionStart_of_mem rdPatterns (splitLines doc) 0 hrd
  have hext : extractOneSection (splitLines doc) "Results & Discussion" rdPatterns =
      some (joinNl (((splitLines doc).drop i).take
        (findSectionEnd (splitLines doc) "Results & Discussion" (fallbackLevel st) i - i))) := by
    unfold extractOneSection
    rw [hstart]
  refine ⟨?_, ?_, i, st, hstart, ?_⟩
  · rw [fallbackMap_eq_raw]; exact alGet_raw_results _
  · rw [fallbackMap_eq_raw]; exact alGet_raw_discussion _
  · rw [fallbackMap_eq_raw, fallbackSectionsRaw_eq,
      alGet_fbStep_ne _ _ ("Conclusion", conclusionPatterns) _ (by decide)]
    exact alGet_fbStep_some _ _ ("Results & Discussion", rdPatterns) _ hext

/-- C1 amended, witness: a Results-then-Discussion document. -/
theorem c1_results_discussion_amended_witness :
    alGet (fallbackMap c1WitnessDoc) "Results" = none ∧
    alGet (fallbackMap c1WitnessDoc) "Discussion" = none ∧
    ∃ i st, findSectionStart rdPatterns (splitLines c1WitnessDoc) 0 = some (i, st) ∧
      alGet (fallbackMap c1WitnessDoc) "Results & Discussion" =
        some (joinNl (((splitLines c1WitnessDoc).drop i).take
          (findSectionEnd (splitLines c1WitnessDoc) "Results & Discussion"
            (fallbackLevel st) i - i))) :=
  c1_results_discussion_amended c1WitnessDoc (by decide) (by decide)

/-! ## Claim C7: contents begin with their matched heading line -/

theorem splitNl_cons (c : Char) (cs : List Char) :
    splitNl (c :: cs) =
      if c = '\n' then [] :: splitNl cs
      else match splitNl cs with | [] => [[c]] | g :: gs => (c :: g) :: gs := rfl

theorem splitNl_ne_nil (cs : List Char) : splitNl cs ≠ [] := by
  cases cs with
  | nil => simp [splitNl]
  | cons c rest =>
    unfold splitNl
    by_cases hc : c = '\n'
    · simp [hc]
    · rw [if_neg hc]
      cases splitNl rest <;> simp

theorem splitNl_no_newline : ∀ (cs g : List Char), g ∈ splitNl cs → '\n' ∉ g := by
  intro cs
  induction cs with
  | nil =>
    intro g hg
    simp [splitNl] at hg
    simp [hg]
  | cons c rest ih =>
    intro g hg
    unfold splitNl at hg
    by_cases hc : c = '\n'
    · rw [if_pos hc] at hg
      rcases List.mem_cons.mp hg with rfl | hg'
      · simp
      · exact ih g hg'
    · rw [if_neg hc] at hg
      cases h0 : splitNl rest with
      | nil => exact absurd h0 (splitNl_ne_nil rest)
      | cons g0 gs =>
        rw [h0] at hg
        rcases List.mem_cons.mp hg with rfl | hg'
        · intro hmem
          rcases List.mem_cons.mp hmem with h1 | h1
          · exact hc h1.symm
          · exact ih g0 (h0 ▸ List.mem_cons_self g0 gs) h1
        · exact ih g (h0 ▸ List.mem_cons_of_mem g0 hg')

theorem splitNl_append_newline (a : List Char) (t : List Char) (ha : '\n' ∉ a) :
    splitNl (a ++ '\n' :: t) = a :: splitNl t := by
  induction a with
  | nil => simp [splitNl]
  | cons c a2 ih =>
    have hc : c ≠ '\n' := by
      intro h; exact ha (h ▸ List.mem_cons_self c a2)
    have ha2 : '\n' ∉ a2 := fun h => ha (List.mem_cons_of_mem c h)
    show splitNl (c :: (a2 ++ '\n' :: t)) = (c :: a2) :: splitNl t
    rw [splitNl_cons, if_neg hc, ih ha2]

theorem splitNl_no_nl_eq (a : List Char) (ha : '\n' ∉ a) : splitNl a = [a] := by
  induction a with
  | nil => rfl
  | cons c a2 ih =>
    have hc : c ≠ '\n' := by
      intro h; exact ha (h ▸ List.mem_cons_self c a2)
    have ha2 : '\n' ∉ a2 := fun h => ha (List.mem_cons_of_mem c h)
    show splitNl (c :: a2) = [c :: a2]
    rw [splitNl_cons, if_neg hc, ih ha2]

theorem firstLineOf_joinNl (x : String) (xs : List String) (hx : '\n' ∉ x.data) :
    firstLineOf (joinNl (x :: xs)) = x := by
  cases xs with
  | nil =>
    show ((splitNl x.data).map String.mk).headD "" = x
    rw [splitNl_no_nl_eq x.data hx]
    rfl
  | cons y ys =>
    show ((splitNl (x ++ "\n" ++ joinNl (y :: ys)).data).map String.mk).headD "" = x
    have hdata : (x ++ "\n" ++ joinNl (y :: ys)).data
        = x.data ++ '\n' :: (joinNl (y :: ys)).data := by
      simp
    rw [hdata, splitNl_append_newline x.data _ hx]
    rfl

theorem getD_mem_of_lt {α : Type} (l : List α) (i : Nat) (d : α) (h : i < l.length) :
    l.getD i d ∈ l := by
  induction l generalizing i with
  | nil => simp at h
  | cons a t ih =>
    cases i with
    | zero => simp
    | succ n =>
      simp only [List.getD_cons_succ]
      exact List.mem_cons_of_mem a (ih n (by simpa using h))

theorem splitLines_no_newline (doc x : String) (h : x ∈ splitLines doc) :
    '\n' ∉ x.data := by
  obtain ⟨g, hg, hx⟩ := List.mem_map.mp h
  rw [← hx]
  exact splitNl_no_newline doc.data g hg

theorem mem_fbFold (lines : List String) :
    ∀ (tbl : List (String × List Pat)) (acc : List (String × String)) (p : String × String),
      p ∈ tbl.foldl (fbStep lines) acc →
      p ∈ acc ∨ ∃ np ∈ tbl, np.1 = p.1 ∧ extractOneSection lines np.1 np.2 = some p.2 := by
  intro tbl
  induction tbl with
  | nil => intro acc p h; exact Or.inl h
  | cons np0 rest ih =>
    intro acc p h
    rcases ih (fbStep lines acc np0) p h with h1 | h1
    · unfold fbStep at h1
      cases hx : extractOneSection lines np0.1 np0.2 with
      | none => rw [hx] at h1; exact Or.inl h1
      | some c =>
        rw [hx] at h1
        rcases mem_alSet h1 with h2 | h2
        · right
          refine ⟨np0, List.mem_cons_self np0 rest, ?_, ?_⟩
          · rw [h2]
          · rw [h2]; exact hx
        · exact Or.inl h2
    · right
      obtain ⟨np, hnp, hh⟩ := h1
      exact ⟨np, List.mem_cons_of_mem _ hnp, hh⟩

theorem findSectionStart_spec (pats : List Pat) :
    ∀ (ls : List String) (j i : Nat) (st : String),
      findSectionStart pats ls j = some (i, st) →
      ∃ k, i = j + k ∧ k < ls.length ∧ st = pyStrip (ls.getD k "") ∧
        anyMatchCI pats st = true := by
  intro ls
  induction ls with
  | nil => intro j i st h; cases h
  | cons a rest ih =>
    intro j i st h
    unfold findSectionStart at h
    by_cases ha : anyMatchCI pats (pyStrip a) = true
    · rw [if_pos ha] at h
      have h1 : j = i ∧ pyStrip a = st := by
        have := Option.some.inj h
        exact ⟨congrArg Prod.fst this, congrArg Prod.snd this⟩
      refine ⟨0, by omega, by simp, ?_, ?_⟩
      · rw [← h1.2]; rfl
      · rw [← h1.2]; exact ha
    · rw [if_neg ha] at h
      obtain ⟨k, hk1, hk2, hk3, hk4⟩ := ih (j + 1) i st h
      exact ⟨k + 1, by omega, by simp; omega, by simpa using hk3, hk4⟩

theorem findEndFrom_ge (total : Nat) (name : String) (lvl : Nat) :
    ∀ (suffix : List String) (i0 : Nat),
      findEndFrom total name lvl suffix i0 = total ∨
        i0 ≤ findEndFrom total name lvl suffix i0 := by
  intro suffix
  induction suffix with
  | nil => intro i0; left; rfl
  | cons l rest ih =>
    intro i0
    unfold findEndFrom
    by_cases hb : lineBreaks name lvl l = true
    · rw [if_pos hb]; right; exact Nat.le_refl i0
    · rw [if_neg hb]
      rcases ih (i0 + 1) with h | h
      · left; exact h
      · right; omega

theorem findSectionEnd_gt (lines : List String) (name : String) (lvl start : Nat)
    (h : start < lines.length) : start < findSectionEnd lines name lvl start := by
  unfold findSectionEnd
  rcases findEndFrom_ge lines.length name lvl (lines.drop (start + 1)) (start + 1) with h1 | h1
  · rw [h1]; exact h
  · omega

theorem patternsFor_of_mem (np : String × List Pat) (h : np ∈ sectionPatternTable) :
    patternsFor np.1 = np.2 := by
  simp only [sectionPatternTable, List.mem_cons, List.not_mem_nil, or_false] at h
  rcases h with h | h | h | h | h
  all_goals subst h
  all_goals rfl

/-- C7 counterexample: a model-derived section merged into the final map
need not begin with any matched heading line; with a heuristic map lacking
an Abstract and a model response supplying an Abstract whose text contains
no heading, the final map violates the stated invariant. -/
theorem c7_counterexample :
    ¬ claimC7Statement c7CexDoc (fun _ => none) (fun _ _ => some c7CexResponse)
      none (some c7CexTemplate) := by
  decide

/-- C7, amended: restricted to the heuristic extractor's map, every entry's
content starts with the document line that was matched as the section's
heading (a line whose stripped text matches the section's pattern list). -/
theorem c7_heading_first_amended (doc : String) (p : String × String)
    (hp : p ∈ fallbackMap doc) :
    ∃ l ∈ splitLines doc,
      anyMatchCI (patternsFor p.1) (pyStrip l) = true ∧ firstLineOf p.2 = l := by
  rw [fallbackMap_eq_raw] at hp
  rcases mem_fbFold (splitLines doc) sectionPatternTable [] p hp with h | h
  · cases h
  · obtain ⟨np, hnp, hname, hext⟩ := h
    unfold extractOneSection at hext
    cases hstart : findSectionStart np.2 (splitLines doc) 0 with
    | none => rw [hstart] at hext; cases hext
    | some pair =>
      obtain ⟨i, st⟩ := pair
      rw [hstart] at hext
      have hext2 : joinNl (((splitLines doc).drop i).take
          (findSectionEnd (splitLines doc) np.1 (fallbackLevel st) i - i)) = p.2 :=
        Option.some.inj hext
      obtain ⟨k, hk1, hk2, hk3, hk4⟩ := findSectionStart_spec np.2 (splitLines doc) 0 i st hstart
      have hik : i = k := by omega
      subst hik
      have hlt : i < (splitLines doc).length := hk2
      have hgt : i < findSectionEnd (splitLines doc) np.1 (fallbackLevel st) i :=
        findSectionEnd_gt (splitLines doc) np.1 (fallbackLevel st) i hlt
      have hmem : (splitLines doc).getD i "" ∈ splitLines doc :=
        getD_mem_of_lt (splitLines doc) i "" hlt
      have hnl : '\n' ∉ ((splitLines doc).getD i "").data :=
        splitLines_no_newline doc _ hmem
      refine ⟨(splitLines doc).getD i "", hmem, ?_, ?_⟩
      · rw [← hname, patternsFor_of_mem np hnp, ← hk3]
        exact hk4
      · rw [← hext2]
        have hslice : ((splitLines doc).drop i).take
            (findSectionEnd (splitLines doc) np.1 (fallbackLevel st) i - i) =
            (splitLines doc).getD i "" :: ((splitLines doc).drop (i + 1)).take
              (findSectionEnd (splitLines doc) np.1 (fallbackLevel st) i - i - 1) := by
          rw [drop_eq_getD_cons "" (splitLines doc) i hlt]
          cases he : findSectionEnd (splitLines doc) np.1 (fallbackLevel st) i - i with
          | zero => omega
          | succ n => simp
        rw [hslice]
        exact firstLineOf_joinNl _ _ hnl

/-- C7 amended, witness: a plain Abstract document. -/
theorem c7_heading_first_amended_witness :
    ∃ l ∈ splitLines c7WitnessDoc,
      anyMatchCI (patternsFor "Abstract") (pyStrip l) = true ∧
        firstLineOf "# Abstract\nShort body." = l :=
  c7_heading_first_amended c7WitnessDoc ("Abstract", "# Abstract\nShort body.") (by decide)

end PaperMiner
